import Mathlib

/-!
# Zion submitter of the poly relayer

A shallow embedding of `relayer/zion/zion.go`: the header synchronisation
loops (`syncHeaderLoop`, `syncHeaderBatchLoop`), the shared submission step
`SubmitHeadersWithLoop` with its confirmation check, the transaction
submitter `submit` and the multi-account worker loop `consume`.

Conventions of the embedding:

* `uint64` values are natural numbers; every operation that can overflow is
  written with an explicit reduction modulo `2 ^ 64` (`sub64`, `add64`).
* A Go `[]byte` that may be `nil` is an `Option Bytes`; `none` is `nil`,
  `some []` is the empty, non-nil slice.
* A Go `error` result is an `Option GoError`; `none` is `nil`.
* Collaborators whose code is outside the file (the destination chain client,
  the wallet, the composer, the ABI packer, the method allow-list) are the
  fields of `Env`; the calls made to them are recorded in the state so that
  theorems can speak about which calls happened.
* `select` is resolved by the caller: the loops consume a list of `Event`s,
  one per `select` case that fired.
* Logging and `time.Sleep` have no effect on the state and are left out.
-/

namespace Relayer

/-! ## Machine integers -/

/-- Wrapping `uint64` subtraction `a - b`. -/
def sub64 (a b : Nat) : Nat :=
  (a + 18446744073709551616 - b % 18446744073709551616) % 18446744073709551616

/-- Wrapping `uint64` addition `a + b`. -/
def add64 (a b : Nat) : Nat :=
  (a + b) % 18446744073709551616

/-! ## Data model -/

/-- A byte sequence. -/
abbrev Bytes := List Nat

/-- Error values seen by the submitter: the three sentinels of package `msg`
that the file names, and any other error value with its message text. -/
inductive GoError where
  | ERR_HEADER_MISSING
  | ERR_PROOF_UNAVAILABLE
  | ERR_TX_PENDING
  | other (text : String)
deriving DecidableEq, Repr

/-- The header sync unit `msg.Header`: a height and optional header bytes. -/
structure Header where
  Height : Nat
  Data : Option Bytes
deriving DecidableEq, Repr

/-- The chain identifiers of `bridge-common/base` that the file refers to. -/
structure Base where
  ETH : Nat
  HECO : Nat
  BSC : Nat
  MATIC : Nat
  O3 : Nat
  STARCOIN : Nat
  BYTOM : Nat
  HSC : Nat
  NEO : Nat
  ONT : Nat
deriving DecidableEq, Repr

/-- The fields of `config.HeaderSyncConfig` read by the sync loops. -/
structure HeaderSyncConfig where
  Batch : Int
  ChainId : Nat
deriving DecidableEq, Repr

/-- The account type `accounts.Account`, reduced to its address. -/
structure Account where
  Address : Bytes
deriving DecidableEq, Repr

/-- The Chain Store `bus.ChainStore`: the heights passed to `HeightMark`,
oldest first. The cursor is the last element. -/
structure ChainStore where
  marks : List Nat
deriving DecidableEq, Repr

/-- The call `state.HeightMark(h)`. -/
def ChainStore.HeightMark (c : ChainStore) (h : Nat) : ChainStore :=
  { marks := c.marks ++ [h] }

/-- The cursor of the Chain Store: the height marked last, if any. -/
def ChainStore.cursor (c : ChainStore) : Option Nat :=
  c.marks.getLast?

/-- The decoded method parameters `tx.Param`, reduced to the fields read. -/
structure Param where
  Method : String
  CrossChainID : Bytes
deriving DecidableEq, Repr

/-- The epoch payload `tx.PolyEpoch`. -/
structure PolyEpoch where
  EpochId : Nat
  ChainId : Nat
  Height : Nat
  Header : Bytes
deriving DecidableEq, Repr

/-- The message kinds of package `msg`: the two the file names, and the rest. -/
inductive TxType where
  | SRC
  | POLY_EPOCH
  | kind (n : Nat)
deriving DecidableEq, Repr

/-- The transaction `msg.Tx`, reduced to the fields the file reads or
writes. `SrcStateRoot` is tested against `nil` and is an option; of
`SrcProof` and `SrcEvent` only the length and the content are used. The
declaration of `Attempts` is outside the file; it is an unbounded counter
here. -/
structure Tx where
  TxType : TxType
  SrcChainId : Nat
  DstChainId : Nat
  SrcHash : String
  SrcHeight : Nat
  SrcProofHeight : Nat
  SrcProof : Bytes
  SrcEvent : Bytes
  SrcStateRoot : Option Bytes
  Param : Option Param
  PolySender : Option Account
  PolyHash : String
  PolyEpoch : Option PolyEpoch
  Attempts : Nat
deriving DecidableEq, Repr

/-- The fields of `config.SubmitterConfig` read by the modelled functions. -/
structure SubmitterConfig where
  ChainId : Nat
deriving DecidableEq, Repr

/-- The calls made to the collaborators, oldest first: on-chain height
queries (chain id), composer calls, `LatestHeight` calls, done checks
(chain id, cross-chain id), ABI packs, signed sends (account, call data),
queue pushes (transaction, gate height) and `SubmitHeaders` calls (chain
id, header list). -/
structure CallLog where
  infoQueries : List Nat
  composes : Nat
  latest : Nat
  doneChecks : List (Nat × Bytes)
  packs : Nat
  sends : List (Account × Bytes)
  pushes : List (Tx × Nat)
  headerSubmits : List (Nat × List Bytes)
deriving DecidableEq, Repr

/-- The log with no call made. -/
def CallLog.empty : CallLog :=
  { infoQueries := [], composes := 0, latest := 0, doneChecks := [], packs := 0,
    sends := [], pushes := [], headerSubmits := [] }

/-- The state of `Submitter` that the modelled functions read or write,
together with the log of the calls made to its collaborators. -/
structure Submitter where
  name : String
  config : SubmitterConfig
  sync : HeaderSyncConfig
  state : ChainStore
  signer : Option Account
  lastCommit : Nat
  lastCheck : Nat
  log : CallLog
deriving DecidableEq, Repr

/-- The collaborators of the submitter. Each answer may depend on how many
calls of its kind were made before (the first argument), so that the
outside world may change between calls.

* `GetInfoHeight n chainId`: the destination chain's synced height for a
  chain, a `uint32`, and an error;
* `Compose n tx`: the composer's enrichment of a transaction and an error;
* `LatestHeight n`: the composer's latest height and an error;
* `AllowMethod m`: the configured method allow-list;
* `CheckDone n chainId ccid`: whether a cross-chain id is already imported;
* `Pack n ...`: the ABI encoding of the import call;
* `SendWithAccount n account data`: the signed send, a hash and an error;
* `Encode tx`: the text form of a transaction used in messages;
* `sentinelText e`: the message of a sentinel error of package `msg`. -/
structure Env where
  base : Base
  GetInfoHeight : Nat → Nat → Nat × Option GoError
  Compose : Nat → Tx → Tx × Option GoError
  LatestHeight : Nat → Nat × Option GoError
  AllowMethod : String → Bool
  CheckDone : Nat → Nat → Bytes → Bool × Option GoError
  Pack : Nat → Nat → Nat → Bytes → Bytes → Bytes → Bytes → Bytes × Option GoError
  SendWithAccount : Nat → Account → Bytes → String × Option GoError
  Encode : Tx → String
  sentinelText : GoError → String

/-! ## Header submission -/

/-- The function `submitHeadersWithLoop`: its retry loop is commented out in
the source, what is left returns `nil`. -/
def submitHeadersWithLoop (_s : Submitter) (_chainId : Nat) (_headers : List Bytes)
    (_header : Option Header) : Option GoError :=
  none

/-- The function `GetSideChainHeight`: one height query, widened from `uint32`. -/
def GetSideChainHeight (env : Env) (s : Submitter) (chainId : Nat) :
    Submitter × Nat × Option GoError :=
  let r := env.GetInfoHeight s.log.infoQueries.length chainId
  ({ s with log := { s.log with infoQueries := s.log.infoQueries ++ [chainId] } },
    r.1 % 4294967296, r.2)

/-- The chains of the `switch` in `SubmitHeadersWithLoop`. -/
def checkedChains (b : Base) : List Nat :=
  [b.ETH, b.HECO, b.BSC, b.MATIC, b.O3, b.STARCOIN, b.BYTOM, b.HSC]

/-- The first half of `SubmitHeadersWithLoop`: the submission and, on
success with a header, the confirmation check or the counter increment. -/
def submitAndCheck (env : Env) (s : Submitter) (chainId : Nat) (headers : List Bytes)
    (header : Option Header) : Submitter × Option GoError :=
  if headers.length > 0 then
    match submitHeadersWithLoop s chainId headers header, header with
    | none, some _ =>
      if s.lastCommit > 0 ∧ s.lastCheck > 3 then
        let s1 := { s with lastCheck := 0 }
        if chainId ∈ checkedChains env.base then
          let q := GetSideChainHeight env s1 chainId
          match q.2.2 with
          | some _ => (q.1, none)
          | none =>
            if q.2.1 < q.1.lastCommit then (q.1, some GoError.ERR_HEADER_MISSING)
            else (q.1, none)
        else (s1, none)
      else ({ s with lastCheck := add64 s.lastCheck 1 }, none)
    | err, _ => (s, err)
  else (s, none)

/-- The function `SubmitHeadersWithLoop`. -/
def SubmitHeadersWithLoop (env : Env) (s : Submitter) (chainId : Nat) (headers : List Bytes)
    (header : Option Header) : Submitter × Option GoError :=
  let r := submitAndCheck env s chainId headers header
  match header, r.2 with
  | some hd, none =>
    ({ r.1 with state := r.1.state.HeightMark hd.Height, lastCommit := hd.Height }, none)
  | _, err => (r.1, err)

/-! ## Header sync loops -/

/-- One fired `select` case of a sync loop: cancellation, a unit received
from the channel, the channel found closed, or the idle timer. -/
inductive Event where
  | done
  | recv (header : Header)
  | closed
  | timeout
deriving DecidableEq, Repr

/-- One call of `SubmitHeadersWithLoop` made by a sync loop: its arguments,
its result, and whether it is the flush after the loop was left. -/
structure Call where
  chainId : Nat
  headers : List Bytes
  header : Option Header
  err : Option GoError
  flush : Bool
deriving DecidableEq, Repr

/-- A sync loop in progress: the submitter, the values sent on `reset` so
far (oldest first), the calls made so far, and the local variables of
`syncHeaderBatchLoop` (unused in single mode). -/
structure SyncLoop where
  s : Submitter
  reset : List Nat
  calls : List Call
  headers : List Bytes
  height : Nat
  hdr : Option Header
deriving DecidableEq, Repr

/-- The state in which either loop starts. -/
def SyncLoop.start (s : Submitter) : SyncLoop :=
  { s := s, reset := [], calls := [], headers := [], height := 0, hdr := none }

/-- The body of the receive case of `syncHeaderLoop`. -/
def singleRecv (env : Env) (st : SyncLoop) (header : Header) : SyncLoop :=
  let headers : List Bytes :=
    match header.Data with
    | none => []
    | some d => [d]
  let r := SubmitHeadersWithLoop env st.s st.s.sync.ChainId headers (some header)
  { st with
    s := r.1
    calls := st.calls ++ [{ chainId := st.s.sync.ChainId, headers := headers,
                            header := some header, err := r.2, flush := false }]
    reset := match r.2 with
      | some _ => st.reset ++ [sub64 header.Height 2]
      | none => st.reset }

/-- The function `syncHeaderLoop` run on the events that fire, in order.
The second component tells whether the loop returned; with no event left
it is still waiting in `select`. The idle timer is not a case of this
loop. -/
def syncHeaderLoop (env : Env) : SyncLoop → List Event → SyncLoop × Bool
  | st, [] => (st, false)
  | st, Event.done :: _ => (st, true)
  | st, Event.closed :: _ => (st, true)
  | st, Event.timeout :: evs => syncHeaderLoop env st evs
  | st, Event.recv header :: evs => syncHeaderLoop env (singleRecv env st header) evs

/-- The block `if commit { ... }` of `syncHeaderBatchLoop`. -/
def commitBlock (env : Env) (st : SyncLoop) (commit : Bool) : SyncLoop :=
  if commit then
    let r := SubmitHeadersWithLoop env st.s st.s.sync.ChainId st.headers st.hdr
    { st with
      s := r.1
      calls := st.calls ++ [{ chainId := st.s.sync.ChainId, headers := st.headers,
                              header := st.hdr, err := r.2, flush := false }]
      reset := match r.2 with
        | some _ => st.reset ++ [sub64 (sub64 st.height st.headers.length) 2]
        | none => st.reset
      headers := [] }
  else st

/-- The receive case of `syncHeaderBatchLoop` up to the commit block: the
contiguity test, the height update and the append. Returns the new local
variables and the `commit` flag. -/
def batchAccept (st : SyncLoop) (header : Header) : SyncLoop × Bool :=
  let kept : List Bytes :=
    if st.headers.length > 0 ∧ st.height ≠ sub64 header.Height 1 then [] else st.headers
  match header.Data with
  | none => ({ st with hdr := some header, height := header.Height, headers := kept }, true)
  | some d =>
    ({ st with hdr := some header, height := header.Height, headers := kept ++ [d] },
      decide (((kept ++ [d]).length : Int) ≥ st.s.sync.Batch))

/-- One iteration of the loop labelled `COMMIT`; the flag tells whether the
iteration left the loop. -/
def batchIter (env : Env) (st : SyncLoop) : Event → SyncLoop × Bool
  | Event.done => (st, true)
  | Event.closed => (st, true)
  | Event.recv header =>
    let a := batchAccept st header
    (commitBlock env a.1 a.2, false)
  | Event.timeout => (commitBlock env st (decide (st.headers.length > 0)), false)

/-- The loop labelled `COMMIT` run on the events that fire, in order; the
flag tells whether the loop was left. -/
def batchLoop (env : Env) : SyncLoop → List Event → SyncLoop × Bool
  | st, [] => (st, false)
  | st, ev :: evs =>
    let r := batchIter env st ev
    if r.2 then (r.1, true) else batchLoop env r.1 evs

/-- The flush after the loop: a last submission of a non-empty pending
batch, whose result is dropped. -/
def batchFlush (env : Env) (st : SyncLoop) : SyncLoop :=
  if st.headers.length > 0 then
    let r := SubmitHeadersWithLoop env st.s st.s.sync.ChainId st.headers st.hdr
    { st with
      s := r.1
      calls := st.calls ++ [{ chainId := st.s.sync.ChainId, headers := st.headers,
                              header := st.hdr, err := r.2, flush := true }] }
  else st

/-- The function `syncHeaderBatchLoop` from a given loop state. -/
def batchFrom (env : Env) (st : SyncLoop) (events : List Event) : SyncLoop × Bool :=
  let r := batchLoop env st events
  if r.2 then (batchFlush env r.1, true) else r

/-- The function `syncHeaderBatchLoop`. -/
def syncHeaderBatchLoop (env : Env) (s : Submitter) (events : List Event) : SyncLoop × Bool :=
  batchFrom env (SyncLoop.start s) events

/-! ## Strings and error messages -/

/-- Whether the second list is a prefix of the first. -/
def hasPrefixChars : List Char → List Char → Bool
  | _, [] => true
  | [], _ :: _ => false
  | c :: cs, p :: ps => c == p && hasPrefixChars cs ps

/-- Whether the second list occurs in the first as a contiguous run. -/
def containsChars : List Char → List Char → Bool
  | [], sub => hasPrefixChars [] sub
  | c :: cs, sub => hasPrefixChars (c :: cs) sub || containsChars cs sub

/-- The function `strings.Contains`. -/
def Contains (s substr : String) : Bool :=
  containsChars s.toList substr.toList

/-- The method `err.Error()`: the message of an error value. -/
def GoError.Error (env : Env) : GoError → String
  | GoError.other text => text
  | e => env.sentinelText e

/-- Lower-case hexadecimal digit. -/
def hexDigit (n : Nat) : Char :=
  "0123456789abcdef".toList.getD n '0'

/-- The rendering of a byte slice by the verb `%x`. -/
def hexBytes (b : Bytes) : String :=
  String.mk (b.flatMap fun x => [hexDigit (x / 16 % 16), hexDigit (x % 16)])

/-! ## Transaction submission -/

/-- How a call ended: it returned an error result, or it panicked on a nil
signer. -/
inductive Outcome where
  | returned (err : Option GoError)
  | panicked
deriving DecidableEq, Repr

/-- The result of `submit`: the submitter with its call log, the
transaction as the call left it, and the outcome. -/
structure SubmitResult where
  s : Submitter
  tx : Tx
  out : Outcome
deriving DecidableEq, Repr

/-- The error of `submit` for missing parameters or a zero source chain. -/
def paramMissing (s : Submitter) (tx : Tx) : GoError :=
  GoError.other (s.name ++ " submitter src tx " ++ tx.SrcHash ++
    " param is missing or src chain id not specified")

/-- The error of `submit` for a missing state root or proof. The chain id
is a `uint64` rendered with the verb `%s`. -/
def proofMissing (s : Submitter) (tx : Tx) : GoError :=
  GoError.other (s.name ++ " submitter src tx src state root(" ++
    hexBytes (tx.SrcStateRoot.getD []) ++ ") or src proof(" ++ hexBytes tx.SrcProof ++
    ") missing for chain %!s(uint64=" ++ toString tx.SrcChainId ++ ") with tx " ++ tx.SrcHash)

/-- The error of `submit` for a failed ABI pack. The format has no verb:
`fmt` appends the two surplus arguments in its `EXTRA` form, of which the
dynamic type name of the error is not modelled. -/
def packFailed (env : Env) (err : GoError) : GoError :=
  GoError.other ("Pack zion tx failed%!(EXTRA string=err, error=" ++ err.Error env ++ ")")

/-- The generic wrapped failure of `submit`. -/
def importFailed (env : Env) (err : GoError) (tx : Tx) : GoError :=
  GoError.other ("Failed to import tx to poly, " ++ err.Error env ++ " tx src hash " ++ tx.SrcHash)

/-- The tail of `submit` from the ABI pack on: pack, signed send, and the
mapping of the send error. A nil signer panics when its address is read. -/
def importOuterTransfer (env : Env) (s : Submitter) (tx : Tx) (signer : Option Account) :
    SubmitResult :=
  match signer with
  | none => { s := s, tx := tx, out := Outcome.panicked }
  | some account =>
    let p := env.Pack s.log.packs tx.SrcChainId (tx.SrcProofHeight % 4294967296) tx.SrcProof
      account.Address tx.SrcEvent (tx.SrcStateRoot.getD [])
    let s1 : Submitter := { s with log := { s.log with packs := s.log.packs + 1 } }
    match p.2 with
    | some err => { s := s1, tx := tx, out := Outcome.returned (some (packFailed env err)) }
    | none =>
      let r := env.SendWithAccount s1.log.sends.length account p.1
      let s2 : Submitter := { s1 with log := { s1.log with sends := s1.log.sends ++ [(account, p.1)] } }
      match r.2 with
      | some err =>
        if Contains (err.Error env) "tx already done" then
          { s := s2, tx := tx, out := Outcome.returned none }
        else if Contains (err.Error env) "already known" then
          { s := s2, tx := tx, out := Outcome.returned (some GoError.ERR_TX_PENDING) }
        else
          { s := s2, tx := tx, out := Outcome.returned (some (importFailed env err tx)) }
      | none => { s := s2, tx := { tx with PolyHash := r.1 }, out := Outcome.returned none }

/-- The function `submit`. -/
def submit (env : Env) (s : Submitter) (tx : Tx) : SubmitResult :=
  let c := env.Compose s.log.composes tx
  let s1 : Submitter := { s with log := { s.log with composes := s.log.composes + 1 } }
  match c.2 with
  | some err =>
    if Contains (err.Error env) "missing trie node" then
      { s := s1, tx := c.1, out := Outcome.returned (some GoError.ERR_PROOF_UNAVAILABLE) }
    else { s := s1, tx := c.1, out := Outcome.returned (some err) }
  | none =>
    match c.1.Param with
    | none => { s := s1, tx := c.1, out := Outcome.returned (some (paramMissing s1 c.1)) }
    | some param =>
      if c.1.SrcChainId = 0 then
        { s := s1, tx := c.1, out := Outcome.returned (some (paramMissing s1 c.1)) }
      else if env.AllowMethod param.Method = false then
        { s := s1, tx := c.1, out := Outcome.returned none }
      else
        let tx1 : Tx := { c.1 with SrcStateRoot := some (c.1.SrcStateRoot.getD []) }
        let signer : Option Account :=
          match tx1.PolySender with
          | some a => some a
          | none => s1.signer
        if tx1.SrcChainId = env.base.NEO ∨ tx1.SrcChainId = env.base.ONT then
          if (tx1.SrcStateRoot.getD []).length = 0 ∨ tx1.SrcProof.length = 0 then
            { s := s1, tx := tx1, out := Outcome.returned (some (proofMissing s1 tx1)) }
          else importOuterTransfer env s1 tx1 signer
        else
          let d := env.CheckDone s1.log.doneChecks.length tx1.SrcChainId param.CrossChainID
          let s2 : Submitter :=
            { s1 with log := { s1.log with
                doneChecks := s1.log.doneChecks ++ [(tx1.SrcChainId, param.CrossChainID)] } }
          match d.2 with
          | some err => { s := s2, tx := tx1, out := Outcome.returned (some err) }
          | none =>
            if d.1 then { s := s2, tx := tx1, out := Outcome.returned none }
            else importOuterTransfer env s2 tx1 signer

/-! ## The multi-account worker loop -/

/-- The function `ReadyBlock`. An error of the query is only logged. -/
def ReadyBlock (env : Env) (s : Submitter) : Submitter × Nat :=
  if s.config.ChainId ∈ [env.base.ETH, env.base.BSC, env.base.HECO, env.base.O3,
      env.base.MATIC, env.base.STARCOIN, env.base.BYTOM, env.base.HSC] then
    let r := env.GetInfoHeight s.log.infoQueries.length s.config.ChainId
    ({ s with log := { s.log with infoQueries := s.log.infoQueries ++ [s.config.ChainId] } },
      r.1 % 4294967296)
  else
    let r := env.LatestHeight s.log.latest
    ({ s with log := { s.log with latest := s.log.latest + 1 } }, r.1 % 18446744073709551616)

/-- Modelled from the spec: `bus.SafeCall` and the queue behind `mq.Push` are
not in the source. The statement
`bus.SafeCall(ctx, tx, "push back to tx bus", func() error { return mq.Push(..., tx, block) })`
is taken to requeue the transaction once at the given gate height, as the
worker loop of the spec does; the push-back is recorded in the call log. -/
def pushBack (s : Submitter) (tx : Tx) (block : Nat) : Submitter :=
  { s with log := { s.log with pushes := s.log.pushes ++ [(tx, block)] } }

/-- A worker of `consume`: the submitter, the cached ready height, and
whether the worker panicked. -/
structure Worker where
  s : Submitter
  height : Nat
  panicked : Bool
deriving DecidableEq, Repr

/-- The part of the loop body of `consume` that handles a popped
transaction `tx` with gate height `block`. -/
def consumeTx (env : Env) (account : Account) (w : Worker) (tx : Tx) (block : Nat) : Worker :=
  if block ≤ w.height then
    let r := submit env w.s { tx with PolySender := some account }
    match r.out with
    | Outcome.panicked => { w with s := r.s, panicked := true }
    | Outcome.returned none => { w with s := r.s }
    | Outcome.returned (some err) =>
      let block1 := add64 block 1
      let block2 := if err = GoError.ERR_TX_PENDING then add64 block1 69 else block1
      { w with s := pushBack r.s { r.tx with Attempts := r.tx.Attempts + 1 } block2 }
  else { w with s := pushBack w.s tx block }

/-- What fires in one iteration of the loop of `consume`: whether the
context is done, whether the ticker fired, and the result of `mq.Pop`. -/
structure Round where
  done : Bool
  tick : Bool
  tx : Option Tx
  block : Nat
  err : Option GoError
deriving DecidableEq, Repr

/-- The ready height refresh of `consume` on a tick. -/
def refreshHeight (env : Env) (w : Worker) : Worker :=
  let r := ReadyBlock env w.s
  if r.2 > 0 ∧ w.height ≠ r.2 then { w with s := r.1, height := r.2 } else { w with s := r.1 }

/-- One iteration of the loop of `consume`; the flag tells whether the
function returned. -/
def consumeRound (env : Env) (account : Account) (w : Worker) (r : Round) : Worker × Bool :=
  if r.done then (w, true)
  else
    let w1 := if r.tick then refreshHeight env w else w
    match r.err, r.tx with
    | some _, _ => (w1, false)
    | none, none => (w1, false)
    | none, some tx => (consumeTx env account w1 tx r.block, false)

/-- The loop of `consume` from a given worker state, run on the rounds that
happen, in order. The flag tells whether the function returned; a panic
ends the worker. -/
def consumeLoop (env : Env) (account : Account) : Worker → List Round → Worker × Bool
  | w, [] => (w, false)
  | w, r :: rs =>
    let n := consumeRound env account w r
    if n.2 ∨ n.1.panicked then (n.1, n.2) else consumeLoop env account n.1 rs

/-- The function `consume`. -/
def consume (env : Env) (account : Account) (s : Submitter) (rounds : List Round) :
    Worker × Bool :=
  let start := ReadyBlock env s
  consumeLoop env account { s := start.1, height := start.2, panicked := false } rounds

/-! ## Epoch aggregation -/

/-- The function `SubmitHeaders`: its body is commented out in the source,
what is left returns an empty hash and `nil`. The call is recorded. -/
def SubmitHeaders (s : Submitter) (chainId : Nat) (headers : List Bytes) :
    Submitter × String × Option GoError :=
  ({ s with log := { s.log with headerSubmits := s.log.headerSubmits ++ [(chainId, headers)] } },
    "", none)

/-- The loop of `ProcessEpochs` that collects the header bytes; it stops at
the first element that is not an epoch message or has no payload. -/
def collectEpochs (env : Env) : List Bytes → List Tx → Except GoError (List Bytes)
  | headers, [] => Except.ok headers
  | headers, m :: ms =>
    match m.PolyEpoch with
    | none =>
      Except.error (GoError.other ("Invalid side chainy epoch message " ++ env.Encode m))
    | some epoch =>
      if m.TxType ≠ TxType.POLY_EPOCH then
        Except.error (GoError.other ("Invalid side chainy epoch message " ++ env.Encode m))
      else collectEpochs env (headers ++ [epoch.Header]) ms

/-- The function `ProcessEpochs`. -/
def ProcessEpochs (env : Env) (s : Submitter) (epochs : List Tx) : Submitter × Option GoError :=
  if epochs.length = 0 then (s, none)
  else
    match collectEpochs env [] epochs with
    | Except.error err => (s, some err)
    | Except.ok headers =>
      match epochs.getLast? with
      | some last =>
        match last.PolyEpoch with
        | some epoch =>
          let r := SubmitHeaders s epoch.ChainId headers
          (r.1, r.2.2)
        | none => (s, none)
      | none => (s, none)

/-! ## Sample collaborators for concrete runs -/

/-- Sample chain identifiers, pairwise distinct. -/
def sampleBase : Base :=
  { ETH := 2, HECO := 7, BSC := 6, MATIC := 17, O3 := 10, STARCOIN := 31, BYTOM := 32,
    HSC := 33, NEO := 4, ONT := 3 }

/-- A sample world: the destination chain reports synced height 3 for every
chain, the composer leaves the transaction as it is, every method is
allowed, no cross-chain id is done, packing returns the event bytes and the
signed send succeeds with hash `0xabc`. -/
def sampleEnv : Env :=
  { base := sampleBase
    GetInfoHeight := fun _ _ => (3, none)
    Compose := fun _ tx => (tx, none)
    LatestHeight := fun _ => (0, none)
    AllowMethod := fun _ => true
    CheckDone := fun _ _ _ => (false, none)
    Pack := fun _ _ _ _ _ event _ => (event, none)
    SendWithAccount := fun _ _ _ => ("0xabc", none)
    Encode := fun tx => tx.SrcHash
    sentinelText := fun _ => "sentinel" }

/-- A freshly initialised submitter for header sync of the given chain with
the given batch size: nothing committed, nothing marked, no call made. -/
def freshSubmitter (chainId : Nat) (batch : Int) : Submitter :=
  { name := "sample", config := { ChainId := chainId },
    sync := { Batch := batch, ChainId := chainId }, state := { marks := [] },
    signer := none, lastCommit := 0, lastCheck := 0, log := CallLog.empty }

/-- A header unit carrying one byte equal to the low byte of its height. -/
def unitAt (h : Nat) : Header :=
  { Height := h, Data := some [h % 256] }

/-! ## Rollback values -/

/-- The rollback value that single mode owes for a call: `h - 2` when the
call returned an error, nothing otherwise. -/
def rollbackSingle (c : Call) : Option Nat :=
  match c.err, c.header with
  | some _, some h => some (sub64 h.Height 2)
  | _, _ => none

/-- The rollback value that batched mode owes for a commit made inside the
loop: `h - L - 2` when the call returned an error, nothing otherwise, and
nothing for the flush made after the loop was left. -/
def rollbackBatch (c : Call) : Option Nat :=
  if c.flush then none
  else
    match c.err, c.header with
    | some _, some h => some (sub64 (sub64 h.Height c.headers.length) 2)
    | _, _ => none

/-- The rollback value that batched mode would owe if the flush counted as
a commit like the others. -/
def rollbackEveryCommit (c : Call) : Option Nat :=
  match c.err, c.header with
  | some _, some h => some (sub64 (sub64 h.Height c.headers.length) 2)
  | _, _ => none

/-- The local variables of the batch loop agree: a non-empty pending batch
comes with a last received unit, whose height is `height`. -/
def SyncLoop.Coherent (st : SyncLoop) : Prop :=
  st.headers ≠ [] → ∃ h, st.hdr = some h ∧ st.height = h.Height

/-- The events of a run in which the units of the given heights arrive in
order, each with header bytes, and the channel is then closed. -/
def arrivals (heights : List Nat) : List Event :=
  heights.map (fun h => Event.recv (unitAt h)) ++ [Event.closed]

/-- What a call looks like from outside: the number of header byte
sequences, the height of the header, the error and the flush mark. -/
def Call.summary (c : Call) : Nat × Option Nat × Option GoError × Bool :=
  (c.headers.length, c.header.map (fun h => h.Height), c.err, c.flush)

/-- The header byte sequences that arrive with a list of events, in order. -/
def dataOf : List Event → List Bytes
  | [] => []
  | Event.recv header :: evs =>
    match header.Data with
    | some d => d :: dataOf evs
    | none => dataOf evs
  | _ :: evs => dataOf evs

/-- The batch loop after one unit with header bytes at height 10 arrived:
one pending byte sequence, batch size 3. -/
def pendingAtTen : SyncLoop :=
  (batchLoop sampleEnv (SyncLoop.start (freshSubmitter 2 3)) [Event.recv (unitAt 10)]).1

/-- A sample signing account. -/
def sampleAccount : Account :=
  { Address := [1, 2, 3] }

/-- A sample source transaction from chain 2 with parameters, a proof and
an event, not yet assigned to a signer. -/
def sampleTx : Tx :=
  { TxType := TxType.SRC, SrcChainId := 2, DstChainId := 0, SrcHash := "0x01",
    SrcHeight := 190, SrcProofHeight := 190, SrcProof := [7], SrcEvent := [9],
    SrcStateRoot := none, Param := some { Method := "lock", CrossChainID := [5] },
    PolySender := none, PolyHash := "", PolyEpoch := none, Attempts := 0 }

/-- A sample worker with the given cached ready height. -/
def sampleWorker (height : Nat) : Worker :=
  { s := freshSubmitter 2 1, height := height, panicked := false }

/-- The sample world in which the signed send fails with a message that
contains both "already known" and "tx already done". -/
def bothTextsEnv : Env :=
  { sampleEnv with
    SendWithAccount := fun _ _ _ => ("", some (GoError.other "already known: tx already done")) }

/-- The sample world in which the signed send fails with "already known". -/
def pendingEnv : Env :=
  { sampleEnv with
    SendWithAccount := fun _ _ _ => ("", some (GoError.other "already known")) }

/-- The sample world in which every cross-chain id is reported done. -/
def allDoneEnv : Env :=
  { sampleEnv with CheckDone := fun _ _ _ => (true, none) }

/-- The sample transaction coming from the chain `NEO` of the sample
identifiers, with a state root. -/
def sampleNeoTx : Tx :=
  { sampleTx with SrcChainId := 4, SrcStateRoot := some [8] }

/-- The sample world in which the destination chain reports synced height
1000 for every chain. -/
def healthyEnv : Env :=
  { sampleEnv with GetInfoHeight := fun _ _ => (1000, none) }

/-- A run of consecutive calls of `SubmitHeadersWithLoop`, one per unit,
each with the unit's bytes as a one-element header list and the unit as the
header. For each call: whether an on-chain height query was made during
the call, and the result of the call. -/
def consecutiveCalls (env : Env) (chainId : Nat) :
    Submitter → List Header → List (Bool × Option GoError)
  | _, [] => []
  | s, h :: hs =>
    let r := SubmitHeadersWithLoop env s chainId [h.Data.getD []] (some h)
    (decide (r.1.log.infoQueries.length > s.log.infoQueries.length), r.2) ::
      consecutiveCalls env chainId r.1 hs

/-- The last call made by a loop carried the unit `u` as its header, and if
that call returned no error the submitter has committed the height of `u`
and the cursor of the Chain Store stands at it. -/
def SyncLoop.Settled (st : SyncLoop) (u : Header) : Prop :=
  ∃ pre c, st.calls = pre ++ [c] ∧ c.header = some u ∧
    (c.err = none → st.s.lastCommit = u.Height ∧ st.s.state.cursor = some u.Height)

/-- Three units with header bytes at the contiguous heights 100, 101, 102. -/
def threeUnits : List Header :=
  [unitAt 100, unitAt 101, unitAt 102]

/-- A submitter in which the confirmation check is due: last commit 49 and
four submissions counted since the last check. -/
def dueSubmitter : Submitter :=
  { freshSubmitter 2 1 with lastCommit := 49, lastCheck := 4 }

/-- A sample epoch message from the given chain with the given header bytes. -/
def epochTx (chainId : Nat) (header : Bytes) : Tx :=
  { sampleTx with
    TxType := TxType.POLY_EPOCH
    PolyEpoch := some { EpochId := 1, ChainId := chainId, Height := 10, Header := header } }

/-- The header bytes of the epoch payloads of a list of messages, in order. -/
def epochHeaders (epochs : List Tx) : List Bytes :=
  epochs.filterMap (fun m => m.PolyEpoch.map (fun e => e.Header))

/-! ## Theorems -/

/-! ### What the sync loops send on the rollback channel -/

theorem singleRecv_trace (env : Env) (st : SyncLoop) (header : Header) :
    ∃ c, (singleRecv env st header).calls = st.calls ++ [c] ∧
      (singleRecv env st header).reset = st.reset ++ (rollbackSingle c).toList ∧
      c.header = some header := by
  refine ⟨_, rfl, ?_, rfl⟩
  simp only [singleRecv, rollbackSingle]
  cases (SubmitHeadersWithLoop env st.s st.s.sync.ChainId
      (match header.Data with
        | none => []
        | some d => [d]) (some header)).2 <;> simp

theorem syncHeaderLoop_trace (env : Env) (events : List Event) :
    ∀ st : SyncLoop, ∃ new, (syncHeaderLoop env st events).1.calls = st.calls ++ new ∧
      (syncHeaderLoop env st events).1.reset = st.reset ++ new.filterMap rollbackSingle := by
  induction events with
  | nil => intro st; exact ⟨[], by simp [syncHeaderLoop]⟩
  | cons ev evs ih =>
    intro st
    cases ev with
    | done => exact ⟨[], by simp [syncHeaderLoop]⟩
    | closed => exact ⟨[], by simp [syncHeaderLoop]⟩
    | timeout => simpa [syncHeaderLoop] using ih st
    | recv header =>
      obtain ⟨c, hc, hr, _⟩ := singleRecv_trace env st header
      obtain ⟨new, h1, h2⟩ := ih (singleRecv env st header)
      refine ⟨c :: new, ?_, ?_⟩
      · simp [syncHeaderLoop, h1, hc]
      · simp only [syncHeaderLoop, h2, hr, List.filterMap_cons]
        cases rollbackSingle c <;> simp

theorem commitBlock_trace (env : Env) (st : SyncLoop) (commit : Bool)
    (hh : ∃ h, st.hdr = some h ∧ st.height = h.Height) :
    ∃ new, (commitBlock env st commit).calls = st.calls ++ new ∧
      (commitBlock env st commit).reset = st.reset ++ new.filterMap rollbackBatch ∧
      (commitBlock env st commit).Coherent := by
  obtain ⟨h, hhdr, hheight⟩ := hh
  cases commit with
  | false =>
    refine ⟨[], by simp [commitBlock], by simp [commitBlock], ?_⟩
    intro _
    exact ⟨h, by simpa [commitBlock] using hhdr, by simpa [commitBlock] using hheight⟩
  | true =>
    refine ⟨[{ chainId := st.s.sync.ChainId, headers := st.headers, header := st.hdr,
               err := (SubmitHeadersWithLoop env st.s st.s.sync.ChainId st.headers st.hdr).2,
               flush := false }], by simp [commitBlock], ?_, ?_⟩
    · simp only [commitBlock, rollbackBatch, hhdr, hheight, if_true, List.filterMap_cons]
      cases (SubmitHeadersWithLoop env st.s st.s.sync.ChainId st.headers (some h)).2 <;> simp
    · intro hne
      simp [commitBlock] at hne

theorem batchAccept_hdr (st : SyncLoop) (header : Header) :
    (batchAccept st header).1.hdr = some header ∧
      (batchAccept st header).1.height = header.Height ∧
      (batchAccept st header).1.calls = st.calls ∧
      (batchAccept st header).1.reset = st.reset ∧
      (batchAccept st header).1.s = st.s := by
  unfold batchAccept
  cases header.Data <;> simp

theorem batchIter_trace (env : Env) (st : SyncLoop) (ev : Event) (hst : st.Coherent) :
    ∃ new, (batchIter env st ev).1.calls = st.calls ++ new ∧
      (batchIter env st ev).1.reset = st.reset ++ new.filterMap rollbackBatch ∧
      (batchIter env st ev).1.Coherent := by
  cases ev with
  | done => exact ⟨[], by simp [batchIter], by simp [batchIter], hst⟩
  | closed => exact ⟨[], by simp [batchIter], by simp [batchIter], hst⟩
  | recv header =>
    obtain ⟨h1, h2, h3, h4, _⟩ := batchAccept_hdr st header
    obtain ⟨new, hc, hr, hco⟩ := commitBlock_trace env (batchAccept st header).1
      (batchAccept st header).2 ⟨header, h1, h2⟩
    exact ⟨new, by simpa [batchIter, h3] using hc, by simpa [batchIter, h4] using hr,
      by simpa [batchIter] using hco⟩
  | timeout =>
    by_cases hne : st.headers = []
    · refine ⟨[], ?_, ?_, ?_⟩ <;> simp [batchIter, commitBlock, hne]
      intro hne2
      exact absurd hne hne2
    · obtain ⟨new, hc, hr, hco⟩ := commitBlock_trace env st
        (decide (st.headers.length > 0)) (hst hne)
      exact ⟨new, by simpa [batchIter] using hc, by simpa [batchIter] using hr,
        by simpa [batchIter] using hco⟩

theorem batchLoop_trace (env : Env) (events : List Event) :
    ∀ st : SyncLoop, st.Coherent →
      ∃ new, (batchLoop env st events).1.calls = st.calls ++ new ∧
        (batchLoop env st events).1.reset = st.reset ++ new.filterMap rollbackBatch ∧
        (batchLoop env st events).1.Coherent := by
  induction events with
  | nil => intro st hst; exact ⟨[], by simp [batchLoop], by simp [batchLoop], hst⟩
  | cons ev evs ih =>
    intro st hst
    obtain ⟨new1, hc1, hr1, hco1⟩ := batchIter_trace env st ev hst
    by_cases hb : (batchIter env st ev).2 = true
    · exact ⟨new1, by simpa [batchLoop, hb] using hc1, by simpa [batchLoop, hb] using hr1,
        by simpa [batchLoop, hb] using hco1⟩
    · obtain ⟨new2, hc2, hr2, hco2⟩ := ih (batchIter env st ev).1 hco1
      refine ⟨new1 ++ new2, ?_, ?_, ?_⟩
      · simp [batchLoop, hb, hc2, hc1]
      · simp [batchLoop, hb, hr2, hr1]
      · simpa [batchLoop, hb] using hco2

theorem batchFlush_trace (env : Env) (st : SyncLoop) :
    ∃ new, (batchFlush env st).calls = st.calls ++ new ∧
      (batchFlush env st).reset = st.reset ∧ new.filterMap rollbackBatch = [] := by
  by_cases hne : st.headers.length > 0
  · exact ⟨[{ chainId := st.s.sync.ChainId, headers := st.headers, header := st.hdr,
              err := (SubmitHeadersWithLoop env st.s st.s.sync.ChainId st.headers st.hdr).2,
              flush := true }], by simp [batchFlush, hne], by simp [batchFlush, hne],
      by simp [rollbackBatch]⟩
  · exact ⟨[], by simp [batchFlush, hne], by simp [batchFlush, hne], by simp⟩

theorem start_coherent (s : Submitter) : (SyncLoop.start s).Coherent := by
  intro hne
  simp [SyncLoop.start] at hne

theorem syncHeaderBatchLoop_trace (env : Env) (s : Submitter) (events : List Event) :
    (syncHeaderBatchLoop env s events).1.reset =
      (syncHeaderBatchLoop env s events).1.calls.filterMap rollbackBatch := by
  obtain ⟨new, hc, hr, _⟩ := batchLoop_trace env events (SyncLoop.start s) (start_coherent s)
  obtain ⟨fl, hfc, hfr, hfn⟩ := batchFlush_trace env (batchLoop env (SyncLoop.start s) events).1
  have e1 : (SyncLoop.start s).calls = [] := rfl
  have e2 : (SyncLoop.start s).reset = [] := rfl
  rw [e1, List.nil_append] at hc
  rw [e2, List.nil_append] at hr
  unfold syncHeaderBatchLoop batchFrom
  by_cases hx : (batchLoop env (SyncLoop.start s) events).2 = true
  · rw [if_pos hx]
    simp only [hfr, hfc, hr, hc, List.filterMap_append, hfn, List.append_nil]
  · rw [if_neg hx, hr, hc]

/-- C1, as stated, fails for the flush: with batch size 2 and units at
heights 1 to 9 followed by closure, the fifth commit is the flush of the
unit of height 9, it returns the header-missing error, and nothing is sent
on the rollback channel, where the claim asks for the value 9 - 1 - 2 = 6. -/
theorem C1_flush_failure_sends_nothing :
    (syncHeaderBatchLoop sampleEnv (freshSubmitter 2 2)
        (arrivals [1, 2, 3, 4, 5, 6, 7, 8, 9])).1.calls.map Call.summary =
      [(2, some 2, none, false), (2, some 4, none, false), (2, some 6, none, false),
       (2, some 8, none, false), (1, some 9, some GoError.ERR_HEADER_MISSING, true)] ∧
    (syncHeaderBatchLoop sampleEnv (freshSubmitter 2 2)
        (arrivals [1, 2, 3, 4, 5, 6, 7, 8, 9])).1.reset = [] ∧
    (syncHeaderBatchLoop sampleEnv (freshSubmitter 2 2)
        (arrivals [1, 2, 3, 4, 5, 6, 7, 8, 9])).1.calls.filterMap rollbackEveryCommit = [6] := by
  decide

/-- C1, amended: in single mode the values sent on the rollback channel are
exactly one value `h - 2` per call that returned an error, in call order,
and nothing for a call without error; in batched mode they are exactly one
value `h - L - 2` per commit made inside the loop that returned an error,
where `L` is the length of the submitted batch and `h` the height of the
last received unit, nothing for a commit without error, and nothing for the
flush after the loop was left (64-bit unsigned arithmetic). Single mode,
heights 46 to 50 with the fifth call failing: the channel receives 48. -/
theorem C1_rollback_values (env : Env) (s : Submitter) (events : List Event) :
    (syncHeaderLoop env (SyncLoop.start s) events).1.reset =
        (syncHeaderLoop env (SyncLoop.start s) events).1.calls.filterMap rollbackSingle ∧
    (syncHeaderBatchLoop env s events).1.reset =
        (syncHeaderBatchLoop env s events).1.calls.filterMap rollbackBatch ∧
    (syncHeaderLoop sampleEnv (SyncLoop.start (freshSubmitter 2 1))
        (arrivals [46, 47, 48, 49, 50])).1.calls.map Call.summary =
      [(1, some 46, none, false), (1, some 47, none, false), (1, some 48, none, false),
       (1, some 49, none, false), (1, some 50, some GoError.ERR_HEADER_MISSING, false)] ∧
    (syncHeaderLoop sampleEnv (SyncLoop.start (freshSubmitter 2 1))
        (arrivals [46, 47, 48, 49, 50])).1.reset = [48] := by
  refine ⟨?_, syncHeaderBatchLoop_trace env s events, by decide, by decide⟩
  obtain ⟨new, hc, hr⟩ := syncHeaderLoop_trace env events (SyncLoop.start s)
  have e1 : (SyncLoop.start s).calls = [] := rfl
  have e2 : (SyncLoop.start s).reset = [] := rfl
  rw [e1, List.nil_append] at hc
  rw [e2, List.nil_append] at hr
  rw [hr, hc]

/-! ### The cursor and the last commit in `SubmitHeadersWithLoop` -/

theorem submitAndCheck_keeps (env : Env) (s : Submitter) (chainId : Nat)
    (headers : List Bytes) (header : Option Header) :
    (submitAndCheck env s chainId headers header).1.state = s.state ∧
      (submitAndCheck env s chainId headers header).1.lastCommit = s.lastCommit := by
  unfold submitAndCheck submitHeadersWithLoop GetSideChainHeight
  cases header with
  | none => split_ifs <;> simp
  | some hd =>
    simp only []
    split_ifs <;> cases (env.GetInfoHeight s.log.infoQueries.length chainId).2 <;> simp

theorem SubmitHeadersWithLoop_ok (env : Env) (s : Submitter) (chainId : Nat)
    (headers : List Bytes) (hd : Header)
    (h : (SubmitHeadersWithLoop env s chainId headers (some hd)).2 = none) :
    (SubmitHeadersWithLoop env s chainId headers (some hd)).1.state.marks =
        s.state.marks ++ [hd.Height] ∧
      (SubmitHeadersWithLoop env s chainId headers (some hd)).1.lastCommit = hd.Height := by
  obtain ⟨k1, _⟩ := submitAndCheck_keeps env s chainId headers (some hd)
  unfold SubmitHeadersWithLoop at h ⊢
  cases hr : (submitAndCheck env s chainId headers (some hd)).2 with
  | none => simp [hr, k1, ChainStore.HeightMark]
  | some e => simp [hr] at h

theorem SubmitHeadersWithLoop_failed (env : Env) (s : Submitter) (chainId : Nat)
    (headers : List Bytes) (header : Option Header)
    (h : (SubmitHeadersWithLoop env s chainId headers header).2 ≠ none) :
    (SubmitHeadersWithLoop env s chainId headers header).1.state = s.state ∧
      (SubmitHeadersWithLoop env s chainId headers header).1.lastCommit = s.lastCommit := by
  obtain ⟨k1, k2⟩ := submitAndCheck_keeps env s chainId headers header
  unfold SubmitHeadersWithLoop at h ⊢
  cases hr : (submitAndCheck env s chainId headers header).2 with
  | none => cases header <;> simp [hr] at h
  | some e => cases header <;> simp [hr, k1, k2]

/-- C3: for a call of `SubmitHeadersWithLoop` with a non-nil header, a
result without error marks the Chain Store cursor with the header's height
and sets `lastCommit` to it, a result with an error leaves the Chain Store
and `lastCommit` as they were, and the mark is made if and only if the
result has no error. A marker-only call (empty header list) returns no
error, marks the cursor and leaves `lastCheck` unchanged. With a nil header
nothing is marked. -/
theorem C3_cursor_marked_iff_success (env : Env) (s : Submitter) (chainId : Nat)
    (headers : List Bytes) (hd : Header) :
    ((SubmitHeadersWithLoop env s chainId headers (some hd)).2 = none →
      (SubmitHeadersWithLoop env s chainId headers (some hd)).1.state.marks =
          s.state.marks ++ [hd.Height] ∧
        (SubmitHeadersWithLoop env s chainId headers (some hd)).1.state.cursor =
          some hd.Height ∧
        (SubmitHeadersWithLoop env s chainId headers (some hd)).1.lastCommit = hd.Height) ∧
    ((SubmitHeadersWithLoop env s chainId headers (some hd)).2 ≠ none →
      (SubmitHeadersWithLoop env s chainId headers (some hd)).1.state = s.state ∧
        (SubmitHeadersWithLoop env s chainId headers (some hd)).1.lastCommit = s.lastCommit) ∧
    ((SubmitHeadersWithLoop env s chainId headers (some hd)).1.state.marks =
        s.state.marks ++ [hd.Height] ↔
      (SubmitHeadersWithLoop env s chainId headers (some hd)).2 = none) ∧
    ((SubmitHeadersWithLoop env s chainId [] (some hd)).2 = none ∧
      (SubmitHeadersWithLoop env s chainId [] (some hd)).1.state.marks =
        s.state.marks ++ [hd.Height] ∧
      (SubmitHeadersWithLoop env s chainId [] (some hd)).1.lastCommit = hd.Height ∧
      (SubmitHeadersWithLoop env s chainId [] (some hd)).1.lastCheck = s.lastCheck) ∧
    ((SubmitHeadersWithLoop env s chainId headers none).1.state = s.state ∧
      (SubmitHeadersWithLoop env s chainId headers none).1.lastCommit = s.lastCommit) := by
  refine ⟨?_, SubmitHeadersWithLoop_failed env s chainId headers (some hd), ?_, ?_, ?_⟩
  · intro h
    obtain ⟨m, l⟩ := SubmitHeadersWithLoop_ok env s chainId headers hd h
    exact ⟨m, by simp [ChainStore.cursor, m], l⟩
  · constructor
    · intro hm
      by_contra hne
      have := (SubmitHeadersWithLoop_failed env s chainId headers (some hd) hne).1
      rw [this] at hm
      simp at hm
    · intro h
      exact (SubmitHeadersWithLoop_ok env s chainId headers hd h).1
  · simp [SubmitHeadersWithLoop, submitAndCheck, ChainStore.HeightMark]
  · obtain ⟨k1, k2⟩ := submitAndCheck_keeps env s chainId headers none
    simp [SubmitHeadersWithLoop, k1, k2]

/-! ### Where the submitted bytes of the batch loop come from -/

theorem height_pred_iff (a b : Nat) (ha : a < 18446744073709551616)
    (hb : b < 18446744073709551616) : a = sub64 b 1 ↔ b = add64 a 1 := by
  unfold sub64 add64
  omega

theorem commitBlock_headers (env : Env) (st : SyncLoop) (commit : Bool) :
    ∃ new, (commitBlock env st commit).calls = st.calls ++ new ∧
      (∀ c ∈ new, c.headers = st.headers ∧ c.header = st.hdr ∧ c.flush = false) ∧
      (commit = true → new.length = 1 ∧ (commitBlock env st commit).headers = []) ∧
      (commit = false → new = [] ∧ (commitBlock env st commit).headers = st.headers) := by
  cases commit with
  | false => exact ⟨[], by simp [commitBlock]⟩
  | true =>
    exact ⟨[{ chainId := st.s.sync.ChainId, headers := st.headers, header := st.hdr,
               err := (SubmitHeadersWithLoop env st.s st.s.sync.ChainId st.headers st.hdr).2,
               flush := false }], by simp [commitBlock]⟩

theorem batchAccept_headers (st : SyncLoop) (header : Header) :
    (batchAccept st header).1.headers =
      (if st.headers.length > 0 ∧ st.height ≠ sub64 header.Height 1 then [] else st.headers) ++
        header.Data.toList := by
  unfold batchAccept
  cases header.Data <;> simp

theorem batchIter_mem (env : Env) (st : SyncLoop) (ev : Event) :
    ∃ new, (batchIter env st ev).1.calls = st.calls ++ new ∧
      (∀ c ∈ new, ∀ b ∈ c.headers, b ∈ st.headers ++ dataOf [ev]) ∧
      (∀ b ∈ (batchIter env st ev).1.headers, b ∈ st.headers ++ dataOf [ev]) := by
  cases ev with
  | done => exact ⟨[], by simp [batchIter], by simp, fun b hb => by simp [batchIter] at hb; simp [hb]⟩
  | closed => exact ⟨[], by simp [batchIter], by simp, fun b hb => by simp [batchIter] at hb; simp [hb]⟩
  | timeout =>
    obtain ⟨new, hc, hh, ht, hf⟩ := commitBlock_headers env st (decide (st.headers.length > 0))
    refine ⟨new, by simpa [batchIter] using hc, ?_, ?_⟩
    · intro c hcm b hb
      rw [(hh c hcm).1] at hb
      simp [hb]
    · intro b hb
      simp only [batchIter] at hb
      cases hcm : decide (st.headers.length > 0) with
      | false => rw [hcm] at hf hb; rw [(hf rfl).2] at hb; simp [hb]
      | true => rw [hcm] at ht hb; rw [(ht rfl).2] at hb; simp at hb
  | recv header =>
    obtain ⟨_, _, h3, _, _⟩ := batchAccept_hdr st header
    have hacc := batchAccept_headers st header
    have hsub : ∀ b ∈ (batchAccept st header).1.headers,
        b ∈ st.headers ++ dataOf [Event.recv header] := by
      intro b hb
      rw [hacc] at hb
      cases hd : header.Data with
      | none =>
        rw [hd] at hb
        split_ifs at hb <;> simp at hb
        simp [hb]
      | some d =>
        rw [hd] at hb
        split_ifs at hb <;> simp at hb <;> simp [dataOf, hd, hb]
    obtain ⟨new, hc, hh, ht, hf⟩ := commitBlock_headers env (batchAccept st header).1
      (batchAccept st header).2
    refine ⟨new, by simpa [batchIter, h3] using hc, ?_, ?_⟩
    · intro c hcm b hb
      rw [(hh c hcm).1] at hb
      exact hsub b hb
    · intro b hb
      simp only [batchIter] at hb
      cases hcm : (batchAccept st header).2 with
      | false => rw [hcm] at hf hb; rw [(hf rfl).2] at hb; exact hsub b hb
      | true => rw [hcm] at ht hb; rw [(ht rfl).2] at hb; simp at hb

theorem dataOf_cons (ev : Event) (evs : List Event) :
    dataOf (ev :: evs) = dataOf [ev] ++ dataOf evs := by
  cases ev with
  | recv header => cases hd : header.Data <;> simp [dataOf, hd]
  | done => simp [dataOf]
  | closed => simp [dataOf]
  | timeout => simp [dataOf]

theorem batchLoop_mem (env : Env) (events : List Event) :
    ∀ st : SyncLoop, ∃ new, (batchLoop env st events).1.calls = st.calls ++ new ∧
      (∀ c ∈ new, ∀ b ∈ c.headers, b ∈ st.headers ++ dataOf events) ∧
      (∀ b ∈ (batchLoop env st events).1.headers, b ∈ st.headers ++ dataOf events) := by
  induction events with
  | nil =>
    intro st
    exact ⟨[], by simp [batchLoop], by simp, fun b hb => by simp [batchLoop] at hb; simp [hb]⟩
  | cons ev evs ih =>
    intro st
    obtain ⟨new1, hc1, hm1, hh1⟩ := batchIter_mem env st ev
    by_cases hb : (batchIter env st ev).2 = true
    · refine ⟨new1, by simpa [batchLoop, hb] using hc1, ?_, ?_⟩
      · intro c hc b hbm
        rw [dataOf_cons]
        have := hm1 c hc b hbm
        simp only [List.mem_append] at this ⊢
        tauto
      · intro b hbm
        rw [dataOf_cons]
        simp only [batchLoop, hb, if_true] at hbm
        have := hh1 b hbm
        simp only [List.mem_append] at this ⊢
        tauto
    · obtain ⟨new2, hc2, hm2, hh2⟩ := ih (batchIter env st ev).1
      refine ⟨new1 ++ new2, by simp [batchLoop, hb, hc2, hc1], ?_, ?_⟩
      · intro c hc b hbm
        rw [dataOf_cons]
        rcases List.mem_append.mp hc with hc | hc
        · have := hm1 c hc b hbm
          simp only [List.mem_append] at this ⊢
          tauto
        · have := hm2 c hc b hbm
          rcases List.mem_append.mp this with h | h
          · have := hh1 b h
            simp only [List.mem_append] at this ⊢
            tauto
          · simp [h]
      · intro b hbm
        rw [dataOf_cons]
        simp only [batchLoop, hb] at hbm
        have := hh2 b hbm
        rcases List.mem_append.mp this with h | h
        · have := hh1 b h
          simp only [List.mem_append] at this ⊢
          tauto
        · simp [h]

theorem batchFlush_headers (env : Env) (st : SyncLoop) :
    ∃ new, (batchFlush env st).calls = st.calls ++ new ∧
      (∀ c ∈ new, c.headers = st.headers ∧ c.header = st.hdr ∧ c.flush = true) ∧
      (st.headers ≠ [] → new.length = 1) ∧ (st.headers = [] → new = []) := by
  by_cases hne : st.headers.length > 0
  · have hne2 : st.headers ≠ [] := by
      intro h
      simp [h] at hne
    exact ⟨[{ chainId := st.s.sync.ChainId, headers := st.headers, header := st.hdr,
              err := (SubmitHeadersWithLoop env st.s st.s.sync.ChainId st.headers st.hdr).2,
              flush := true }], by simp [batchFlush, hne, hne2]⟩
  · have he : st.headers = [] := by
      cases hst : st.headers with
      | nil => rfl
      | cons a l => simp [hst] at hne
    exact ⟨[], by simp [batchFlush, he]⟩

theorem batchFrom_mem (env : Env) (events : List Event) (st : SyncLoop) :
    ∃ new, (batchFrom env st events).1.calls = st.calls ++ new ∧
      (∀ c ∈ new, ∀ b ∈ c.headers, b ∈ st.headers ++ dataOf events) := by
  obtain ⟨new, hc, hm, hh⟩ := batchLoop_mem env events st
  obtain ⟨fl, hfc, hfh, _⟩ := batchFlush_headers env (batchLoop env st events).1
  unfold batchFrom
  by_cases hx : (batchLoop env st events).2 = true
  · simp only [hx, if_true]
    refine ⟨new ++ fl, by rw [hfc, hc, List.append_assoc], ?_⟩
    intro c hcm b hb
    rcases List.mem_append.mp hcm with h | h
    · exact hm c h b hb
    · rw [(hfh c h).1] at hb
      exact hh b hb
  · simp only [hx]
    exact ⟨new, hc, hm⟩

/-- C5, as stated, fails for a marker whose height is not contiguous: with
one byte sequence pending at last height 10, a bare marker of height 20
makes the loop call `SubmitHeadersWithLoop` with an empty header list, not
with the pending batch. -/
theorem C5_gap_marker_drops_batch :
    pendingAtTen.headers = [[10]] ∧ pendingAtTen.height = 10 ∧
    pendingAtTen.calls = [] ∧
    (batchIter sampleEnv pendingAtTen (Event.recv { Height := 20, Data := none })).1.calls.map
        (fun c => (c.headers, c.header)) = [([], some { Height := 20, Data := none })] := by
  decide

/-- C5, amended: in `syncHeaderBatchLoop`, for every pending batch P and
every arriving bare marker unit, the loop immediately calls
`SubmitHeadersWithLoop` with that marker as the header, and the pending
batch is empty afterwards. The header list of the call is P when P is empty
or the marker's height is the last accepted height plus one (64-bit
unsigned arithmetic); it is empty when P is non-empty and the marker's
height is not contiguous, P being discarded. -/
theorem C5_marker_forces_commit (env : Env) (st : SyncLoop) (m : Header)
    (hm : m.Data = none) (hw : m.Height < 18446744073709551616)
    (hs : st.height < 18446744073709551616) :
    ∃ c, (batchIter env st (Event.recv m)).1.calls = st.calls ++ [c] ∧
      c.chainId = st.s.sync.ChainId ∧ c.header = some m ∧ c.flush = false ∧
      (st.headers = [] ∨ m.Height = add64 st.height 1 → c.headers = st.headers) ∧
      (st.headers ≠ [] ∧ m.Height ≠ add64 st.height 1 → c.headers = []) ∧
      (batchIter env st (Event.recv m)).1.headers = [] ∧
      (batchIter env st (Event.recv m)).2 = false := by
  have hiff := height_pred_iff st.height m.Height hs hw
  have hacc : batchAccept st m =
      ({ st with hdr := some m, height := m.Height,
                 headers := if st.headers.length > 0 ∧ st.height ≠ sub64 m.Height 1 then []
                            else st.headers }, true) := by
    simp [batchAccept, hm]
  simp only [batchIter, hacc, commitBlock, if_true]
  refine ⟨_, rfl, ?_⟩
  simp only [and_true, true_and]
  refine ⟨?_, ?_⟩
  · intro h
    rcases h with h | h
    · simp [h]
    · simp [hiff.mpr h]
  · intro h
    have hlen : st.headers.length > 0 := List.length_pos.mpr h.1
    have hne : st.height ≠ sub64 m.Height 1 := fun e => h.2 (hiff.mp e)
    simp [hlen, hne]

/-- C5, amended, at a concrete input: one byte sequence pending at last
height 10 and a bare marker of height 11. -/
theorem C5_marker_forces_commit_witness :
    ∃ c, (batchIter sampleEnv pendingAtTen (Event.recv { Height := 11, Data := none })).1.calls =
        pendingAtTen.calls ++ [c] ∧
      c.chainId = pendingAtTen.s.sync.ChainId ∧
      c.header = some { Height := 11, Data := none } ∧ c.flush = false ∧
      (pendingAtTen.headers = [] ∨ 11 = add64 pendingAtTen.height 1 →
        c.headers = pendingAtTen.headers) ∧
      (pendingAtTen.headers ≠ [] ∧ 11 ≠ add64 pendingAtTen.height 1 → c.headers = []) ∧
      (batchIter sampleEnv pendingAtTen
        (Event.recv { Height := 11, Data := none })).1.headers = [] ∧
      (batchIter sampleEnv pendingAtTen (Event.recv { Height := 11, Data := none })).2 = false :=
  C5_marker_forces_commit sampleEnv pendingAtTen { Height := 11, Data := none } rfl
    (by decide) (by decide)

/-- C4: in `syncHeaderBatchLoop`, in a state with a non-empty pending batch
(shorter than the batch size) whose last accepted height is h, when a unit
arrives whose height is not h + 1 (64-bit unsigned arithmetic, as the loop
compares), the pending batch is discarded: the pending batch after the
iteration is exactly the unit's byte sequence, or empty for a bare marker;
the rest of the run is the one the loop would make from an empty pending
batch; and every byte sequence in a later call arrived with that unit or
after it. -/
theorem C4_gap_discards_batch (env : Env) (st : SyncLoop) (u : Header) (evs : List Event)
    (hne : st.headers ≠ []) (hlen : (st.headers.length : Int) < st.s.sync.Batch)
    (hw : u.Height < 18446744073709551616) (hs : st.height < 18446744073709551616)
    (hgap : u.Height ≠ add64 st.height 1) :
    (batchIter env st (Event.recv u)).1.headers = u.Data.toList ∧
    batchFrom env st (Event.recv u :: evs) =
      batchFrom env { st with headers := [] } (Event.recv u :: evs) ∧
    ∃ new, (batchFrom env st (Event.recv u :: evs)).1.calls = st.calls ++ new ∧
      ∀ c ∈ new, ∀ b ∈ c.headers, b ∈ dataOf (Event.recv u :: evs) := by
  have hiff := height_pred_iff st.height u.Height hs hw
  have hpos : st.headers.length > 0 := List.length_pos.mpr hne
  have hneq : st.height ≠ sub64 u.Height 1 := fun e => hgap (hiff.mp e)
  have hacc : batchAccept st u = batchAccept { st with headers := [] } u := by
    simp [batchAccept, hpos, hneq]
  have hit : batchIter env st (Event.recv u) =
      batchIter env { st with headers := [] } (Event.recv u) := by
    simp only [batchIter, hacc]
  refine ⟨?_, ?_, ?_⟩
  · have hB : (2 : Int) ≤ st.s.sync.Batch := by
      have : (1 : Int) ≤ st.headers.length := by exact_mod_cast hpos
      omega
    cases hd : u.Data with
    | none => simp [batchIter, batchAccept, hd, commitBlock]
    | some d =>
      have hno : ¬ (1 : Int) ≥ st.s.sync.Batch := by omega
      simp [batchIter, batchAccept, hd, commitBlock, hpos, hneq, hno]
  · simp only [batchFrom, batchLoop, hit]
  · obtain ⟨new, hc, hm⟩ := batchFrom_mem env (Event.recv u :: evs) { st with headers := [] }
    refine ⟨new, ?_, ?_⟩
    · simp only [batchFrom, batchLoop, hit] at hc ⊢
      exact hc
    · intro c hcm b hb
      simpa using hm c hcm b hb

/-- C4 at a concrete input: one byte sequence pending at last height 10, a
unit of height 20 arrives, then the channel is closed. -/
theorem C4_gap_discards_batch_witness :
    (pendingAtTen.headers ≠ [] ∧ ((pendingAtTen.headers.length : Int) < pendingAtTen.s.sync.Batch) ∧
      (unitAt 20).Height ≠ add64 pendingAtTen.height 1) ∧
    ((batchIter sampleEnv pendingAtTen (Event.recv (unitAt 20))).1.headers =
        (unitAt 20).Data.toList ∧
      batchFrom sampleEnv pendingAtTen (Event.recv (unitAt 20) :: [Event.closed]) =
        batchFrom sampleEnv { pendingAtTen with headers := [] }
          (Event.recv (unitAt 20) :: [Event.closed]) ∧
      ∃ new, (batchFrom sampleEnv pendingAtTen
          (Event.recv (unitAt 20) :: [Event.closed])).1.calls = pendingAtTen.calls ++ new ∧
        ∀ c ∈ new, ∀ b ∈ c.headers, b ∈ dataOf (Event.recv (unitAt 20) :: [Event.closed])) :=
  ⟨⟨by decide, by decide, by decide⟩,
    C4_gap_discards_batch sampleEnv pendingAtTen (unitAt 20) [Event.closed]
      (by decide) (by decide) (by decide) (by decide) (by decide)⟩

/-! ### The transaction submitter and the worker loop -/

theorem importOuterTransfer_pushes (env : Env) (s : Submitter) (tx : Tx)
    (signer : Option Account) :
    (importOuterTransfer env s tx signer).s.log.pushes = s.log.pushes := by
  unfold importOuterTransfer
  simp only []
  repeat' split
  all_goals rfl

theorem submit_pushes (env : Env) (s : Submitter) (tx : Tx) :
    (submit env s tx).s.log.pushes = s.log.pushes := by
  unfold submit
  simp only []
  repeat' split
  all_goals first | rfl | rw [importOuterTransfer_pushes]

theorem importOuterTransfer_pending (env : Env) (s : Submitter) (tx : Tx)
    (signer : Option Account) (acct : Account) (data : Bytes) (e : GoError)
    (hs : (importOuterTransfer env s tx signer).s.log.sends = s.log.sends ++ [(acct, data)])
    (he : (env.SendWithAccount s.log.sends.length acct data).2 = some e)
    (hknown : Contains (e.Error env) "already known" = true)
    (hdone : Contains (e.Error env) "tx already done" = false) :
    (importOuterTransfer env s tx signer).out =
      Outcome.returned (some GoError.ERR_TX_PENDING) := by
  unfold importOuterTransfer at hs ⊢
  cases signer with
  | none => simp at hs
  | some account =>
    simp only [] at hs ⊢
    split at hs
    · simp at hs
    · rename_i hp
      have hsend : (account, (env.Pack s.log.packs tx.SrcChainId (tx.SrcProofHeight % 4294967296)
          tx.SrcProof account.Address tx.SrcEvent (tx.SrcStateRoot.getD [])).1) = (acct, data) := by
        split at hs
        · split_ifs at hs <;> simpa using hs
        · simpa using hs
      rw [Prod.mk.injEq] at hsend
      obtain ⟨h1, h2⟩ := hsend
      subst h1
      rw [h2, he]
      simp [hknown, hdone]

theorem submit_cases (env : Env) (s : Submitter) (tx : Tx) :
    (submit env s tx).s.log.sends = s.log.sends ∨
      ∃ s1 tx1 signer, submit env s tx = importOuterTransfer env s1 tx1 signer ∧
        s1.log.sends = s.log.sends := by
  unfold submit
  simp only []
  repeat' split
  all_goals first
    | (left; rfl)
    | (right; exact ⟨_, _, _, rfl, rfl⟩)

theorem submit_pending (env : Env) (s : Submitter) (tx : Tx)
    (acct : Account) (data : Bytes) (e : GoError)
    (hs : (submit env s tx).s.log.sends = s.log.sends ++ [(acct, data)])
    (he : (env.SendWithAccount s.log.sends.length acct data).2 = some e)
    (hknown : Contains (e.Error env) "already known" = true)
    (hdone : Contains (e.Error env) "tx already done" = false) :
    (submit env s tx).out = Outcome.returned (some GoError.ERR_TX_PENDING) := by
  rcases submit_cases env s tx with h | ⟨s1, tx1, signer, heq, hs1⟩
  · rw [h] at hs
    simp at hs
  · rw [heq] at hs ⊢
    rw [← hs1] at hs he
    exact importOuterTransfer_pending env s1 tx1 signer acct data e hs he hknown hdone

/-- C6: in the loop of `consume`, a popped transaction whose gate height g
is above the cached ready height is pushed back exactly once, unchanged and
with the same gate height g; `submit` is not called (no composer call, done
check, pack or signed send is made), so neither the signer nor the attempt
counter of the transaction is touched. -/
theorem C6_not_ready_requeued_unchanged (env : Env) (account : Account) (w : Worker)
    (tx : Tx) (g : Nat) (h : g > w.height) :
    consumeTx env account w tx g = { w with s := pushBack w.s tx g } ∧
    (consumeTx env account w tx g).s.log.pushes = w.s.log.pushes ++ [(tx, g)] ∧
    (consumeTx env account w tx g).s.log.composes = w.s.log.composes ∧
    (consumeTx env account w tx g).s.log.doneChecks = w.s.log.doneChecks ∧
    (consumeTx env account w tx g).s.log.packs = w.s.log.packs ∧
    (consumeTx env account w tx g).s.log.sends = w.s.log.sends ∧
    consumeRound env account w { done := false, tick := false, tx := some tx, block := g,
                                 err := none } =
      ({ w with s := pushBack w.s tx g }, false) := by
  have hn : ¬ g ≤ w.height := by omega
  simp [consumeRound, consumeTx, hn, pushBack]

/-- C6 at the claim's input: gate height 200, cached ready height 150. -/
theorem C6_not_ready_requeued_unchanged_witness :
    200 > (sampleWorker 150).height ∧
    consumeTx sampleEnv sampleAccount (sampleWorker 150) sampleTx 200 =
      { sampleWorker 150 with s := pushBack (sampleWorker 150).s sampleTx 200 } ∧
    (consumeTx sampleEnv sampleAccount (sampleWorker 150) sampleTx 200).s.log.pushes =
      (sampleWorker 150).s.log.pushes ++ [(sampleTx, 200)] ∧
    (consumeTx sampleEnv sampleAccount (sampleWorker 150) sampleTx 200).s.log.composes =
      (sampleWorker 150).s.log.composes ∧
    (consumeTx sampleEnv sampleAccount (sampleWorker 150) sampleTx 200).s.log.doneChecks =
      (sampleWorker 150).s.log.doneChecks ∧
    (consumeTx sampleEnv sampleAccount (sampleWorker 150) sampleTx 200).s.log.packs =
      (sampleWorker 150).s.log.packs ∧
    (consumeTx sampleEnv sampleAccount (sampleWorker 150) sampleTx 200).s.log.sends =
      (sampleWorker 150).s.log.sends ∧
    consumeRound sampleEnv sampleAccount (sampleWorker 150)
        { done := false, tick := false, tx := some sampleTx, block := 200, err := none } =
      ({ sampleWorker 150 with s := pushBack (sampleWorker 150).s sampleTx 200 }, false) :=
  ⟨by decide,
    C6_not_ready_requeued_unchanged sampleEnv sampleAccount (sampleWorker 150) sampleTx 200
      (by decide)⟩

theorem add64_one_sixty_nine (g : Nat) : add64 (add64 g 1) 69 = add64 g 70 := by
  unfold add64
  omega

/-- C7, as stated, fails for a send error whose text contains both
"already known" and "tx already done": `submit` made the signed send,
returns success, and the loop of `consume` pushes nothing back. -/
theorem C7_already_done_text_wins :
    Contains "already known: tx already done" "already known" = true ∧
    (submit bothTextsEnv (sampleWorker 150).s
        { sampleTx with PolySender := some sampleAccount }).s.log.sends =
      [(sampleAccount, [9])] ∧
    (bothTextsEnv.SendWithAccount 0 sampleAccount [9]).2 =
      some (GoError.other "already known: tx already done") ∧
    (submit bothTextsEnv (sampleWorker 150).s
        { sampleTx with PolySender := some sampleAccount }).out = Outcome.returned none ∧
    (consumeTx bothTextsEnv sampleAccount (sampleWorker 150) sampleTx 100).s.log.pushes = [] := by
  decide

/-- C7, amended: when `submit` made the signed send and the send returned
an error whose text contains "already known" and does not contain "tx
already done", `submit` returns `ERR_TX_PENDING`. In the loop of `consume`,
for a transaction at gate height g at or below the ready height: when
`submit` returns `ERR_TX_PENDING` the attempt counter is incremented by one
and the transaction is pushed back exactly once at g + 70; for every other
non-nil result the counter is incremented by one and the transaction is
pushed back exactly once at g + 1 (both in 64-bit unsigned arithmetic); a
successful `submit` is not pushed back. -/
theorem C7_pending_backoff (env : Env) (account : Account) (w : Worker) (tx : Tx) (g : Nat)
    (hg : g ≤ w.height) :
    (∀ acct data e,
      (submit env w.s { tx with PolySender := some account }).s.log.sends =
          w.s.log.sends ++ [(acct, data)] →
      (env.SendWithAccount w.s.log.sends.length acct data).2 = some e →
      Contains (e.Error env) "already known" = true →
      Contains (e.Error env) "tx already done" = false →
      (submit env w.s { tx with PolySender := some account }).out =
        Outcome.returned (some GoError.ERR_TX_PENDING)) ∧
    ((submit env w.s { tx with PolySender := some account }).out =
        Outcome.returned (some GoError.ERR_TX_PENDING) →
      (consumeTx env account w tx g).s.log.pushes = w.s.log.pushes ++
        [({ (submit env w.s { tx with PolySender := some account }).tx with
            Attempts := (submit env w.s { tx with PolySender := some account }).tx.Attempts + 1 },
          add64 g 70)]) ∧
    (∀ e, e ≠ GoError.ERR_TX_PENDING →
      (submit env w.s { tx with PolySender := some account }).out =
        Outcome.returned (some e) →
      (consumeTx env account w tx g).s.log.pushes = w.s.log.pushes ++
        [({ (submit env w.s { tx with PolySender := some account }).tx with
            Attempts := (submit env w.s { tx with PolySender := some account }).tx.Attempts + 1 },
          add64 g 1)]) ∧
    ((submit env w.s { tx with PolySender := some account }).out = Outcome.returned none →
      (consumeTx env account w tx g).s.log.pushes = w.s.log.pushes) := by
  have hp := submit_pushes env w.s { tx with PolySender := some account }
  refine ⟨?_, ?_, ?_, ?_⟩
  · intro acct data e hs he hknown hdone
    exact submit_pending env w.s _ acct data e hs he hknown hdone
  · intro ho
    simp only [consumeTx, hg, if_true, ho, pushBack, hp, add64_one_sixty_nine]
  · intro e hne ho
    simp only [consumeTx, hg, if_true, ho, pushBack, hp, hne, if_false]
  · intro ho
    simp only [consumeTx, hg, if_true, ho, hp]

/-- C7, amended, at a concrete input: gate height 100, ready height 150,
and a signed send that fails with "already known": `submit` returns
`ERR_TX_PENDING` and the transaction is pushed back once at height 170 with
one attempt counted. -/
theorem C7_pending_backoff_witness :
    100 ≤ (sampleWorker 150).height ∧
    (submit pendingEnv (sampleWorker 150).s
        { sampleTx with PolySender := some sampleAccount }).out =
      Outcome.returned (some GoError.ERR_TX_PENDING) ∧
    (consumeTx pendingEnv sampleAccount (sampleWorker 150) sampleTx 100).s.log.pushes =
      [({ sampleTx with PolySender := some sampleAccount, SrcStateRoot := some [],
                        Attempts := 1 }, 170)] :=
  ⟨by decide,
    (C7_pending_backoff pendingEnv sampleAccount (sampleWorker 150) sampleTx 100
      (by decide)).1 sampleAccount [9] (GoError.other "already known")
      (by decide) (by decide) (by decide) (by decide),
    ((C7_pending_backoff pendingEnv sampleAccount (sampleWorker 150) sampleTx 100
      (by decide)).2.1 (by decide)).trans (by decide)⟩

/-- C8, as stated, fails for the source chains `NEO` and `ONT`: for them
`submit` makes no done check, so a transaction whose cross-chain id is
reported done is sent all the same and its destination hash is set. -/
theorem C8_neo_skips_done_check :
    sampleNeoTx.SrcChainId = sampleEnv.base.NEO ∧
    (allDoneEnv.CheckDone 0 sampleNeoTx.SrcChainId [5]) = (true, none) ∧
    (submit allDoneEnv (freshSubmitter 2 1)
        { sampleNeoTx with PolySender := some sampleAccount }).out = Outcome.returned none ∧
    (submit allDoneEnv (freshSubmitter 2 1)
        { sampleNeoTx with PolySender := some sampleAccount }).s.log.sends =
      [(sampleAccount, [9])] ∧
    (submit allDoneEnv (freshSubmitter 2 1)
        { sampleNeoTx with PolySender := some sampleAccount }).s.log.doneChecks = [] ∧
    sampleNeoTx.PolyHash = "" ∧
    (submit allDoneEnv (freshSubmitter 2 1)
        { sampleNeoTx with PolySender := some sampleAccount }).tx.PolyHash = "0xabc" := by
  decide

/-- C8, amended: for every transaction that composes successfully, has
method parameters and a non-zero source chain id other than `NEO` and
`ONT`, uses an allowed method, and whose cross-chain id the destination
reports as already done, `submit` returns success, makes no ABI pack and no
signed send, and leaves the destination hash as the composer left it. -/
theorem C8_done_is_noop (env : Env) (s : Submitter) (tx : Tx) (p : Param)
    (hc : (env.Compose s.log.composes tx).2 = none)
    (hp : (env.Compose s.log.composes tx).1.Param = some p)
    (h0 : (env.Compose s.log.composes tx).1.SrcChainId ≠ 0)
    (ha : env.AllowMethod p.Method = true)
    (hneo : (env.Compose s.log.composes tx).1.SrcChainId ≠ env.base.NEO)
    (hont : (env.Compose s.log.composes tx).1.SrcChainId ≠ env.base.ONT)
    (hd : env.CheckDone s.log.doneChecks.length (env.Compose s.log.composes tx).1.SrcChainId
      p.CrossChainID = (true, none)) :
    (submit env s tx).out = Outcome.returned none ∧
    (submit env s tx).s.log.sends = s.log.sends ∧
    (submit env s tx).s.log.packs = s.log.packs ∧
    (submit env s tx).tx.PolyHash = (env.Compose s.log.composes tx).1.PolyHash := by
  unfold submit
  simp [hc, hp, h0, ha, hneo, hont, hd]

/-- C8, amended, at a concrete input: the sample transaction from chain 2
in the world where every cross-chain id is done. -/
theorem C8_done_is_noop_witness :
    (submit allDoneEnv (freshSubmitter 2 1) sampleTx).out = Outcome.returned none ∧
    (submit allDoneEnv (freshSubmitter 2 1) sampleTx).s.log.sends =
      (freshSubmitter 2 1).log.sends ∧
    (submit allDoneEnv (freshSubmitter 2 1) sampleTx).s.log.packs =
      (freshSubmitter 2 1).log.packs ∧
    (submit allDoneEnv (freshSubmitter 2 1) sampleTx).tx.PolyHash =
      (allDoneEnv.Compose (freshSubmitter 2 1).log.composes sampleTx).1.PolyHash :=
  C8_done_is_noop allDoneEnv (freshSubmitter 2 1) sampleTx { Method := "lock", CrossChainID := [5] }
    (by decide) (by decide) (by decide) (by decide) (by decide) (by decide) (by decide)

/-! ### Rollback below the rollback distance, and the cadence of the confirmation check -/

/-- C9 fails on the code below height 2 (single mode) and below height
L + 2 (batched mode). Single mode, units at heights 5, 6, 7, 8, 1: the
fifth call fails the confirmation check and the value sent is
1 - 2 = 2^64 - 1, above the uncommitted height 1. Batched mode with batch
size 2, units at heights 1 to 8 and then 1, 2: the fifth commit holds the
units 1 and 2, fails, and the value sent is 2 - 2 - 2 = 2^64 - 2. -/
theorem C9_rollback_wraps_at_low_heights :
    (syncHeaderLoop sampleEnv (SyncLoop.start (freshSubmitter 2 1))
        (arrivals [5, 6, 7, 8, 1])).1.calls.map Call.summary =
      [(1, some 5, none, false), (1, some 6, none, false), (1, some 7, none, false),
       (1, some 8, none, false), (1, some 1, some GoError.ERR_HEADER_MISSING, false)] ∧
    (syncHeaderLoop sampleEnv (SyncLoop.start (freshSubmitter 2 1))
        (arrivals [5, 6, 7, 8, 1])).1.reset = [18446744073709551615] ∧
    ¬ (18446744073709551615 ≤ 1) ∧
    (syncHeaderBatchLoop sampleEnv (freshSubmitter 2 2)
        (arrivals [1, 2, 3, 4, 5, 6, 7, 8, 1, 2])).1.calls.map Call.summary =
      [(2, some 2, none, false), (2, some 4, none, false), (2, some 6, none, false),
       (2, some 8, none, false), (2, some 2, some GoError.ERR_HEADER_MISSING, false)] ∧
    (syncHeaderBatchLoop sampleEnv (freshSubmitter 2 2)
        (arrivals [1, 2, 3, 4, 5, 6, 7, 8, 1, 2])).1.reset = [18446744073709551614] ∧
    ¬ (18446744073709551614 ≤ 1) := by
  decide

theorem SubmitHeadersWithLoop_counters (env : Env) (s : Submitter) (chainId : Nat)
    (headers : List Bytes) (header : Option Header) :
    (SubmitHeadersWithLoop env s chainId headers header).1.log =
        (submitAndCheck env s chainId headers header).1.log ∧
      (SubmitHeadersWithLoop env s chainId headers header).1.lastCheck =
        (submitAndCheck env s chainId headers header).1.lastCheck ∧
      (SubmitHeadersWithLoop env s chainId headers header).2 =
        (submitAndCheck env s chainId headers header).2 := by
  unfold SubmitHeadersWithLoop
  cases hr : (submitAndCheck env s chainId headers header).2 <;> cases header <;> simp [hr]

theorem submitAndCheck_fires (env : Env) (s : Submitter) (chainId : Nat)
    (headers : List Bytes) (hd : Header) (hpos : headers.length > 0)
    (hc : s.lastCommit > 0) (hk : s.lastCheck > 3) (hin : chainId ∈ checkedChains env.base) :
    (submitAndCheck env s chainId headers (some hd)).1.log.infoQueries =
        s.log.infoQueries ++ [chainId] ∧
      (submitAndCheck env s chainId headers (some hd)).1.lastCheck = 0 := by
  unfold submitAndCheck submitHeadersWithLoop GetSideChainHeight
  simp only [hpos, hc, hk, hin, if_true, and_self]
  cases (env.GetInfoHeight s.log.infoQueries.length chainId).2 <;> simp
  split_ifs <;> simp

theorem submitAndCheck_counts (env : Env) (s : Submitter) (chainId : Nat)
    (headers : List Bytes) (hd : Header) (hpos : headers.length > 0)
    (hk : ¬ (s.lastCommit > 0 ∧ s.lastCheck > 3)) :
    (submitAndCheck env s chainId headers (some hd)).1.log.infoQueries = s.log.infoQueries ∧
      (submitAndCheck env s chainId headers (some hd)).1.lastCheck = add64 s.lastCheck 1 ∧
      (submitAndCheck env s chainId headers (some hd)).2 = none := by
  unfold submitAndCheck submitHeadersWithLoop
  simp only [hpos, hk, if_true, if_false]
  simp

theorem consecutiveCalls_checks (env : Env) (chainId : Nat)
    (hin : chainId ∈ checkedChains env.base) :
    ∀ (units : List Header) (s : Submitter), s.lastCommit > 0 → s.lastCheck ≤ 4 →
      (∀ u ∈ units, u.Height > 0) →
      (∀ r ∈ consecutiveCalls env chainId s units, r.2 = none) →
      (consecutiveCalls env chainId s units).map Prod.fst =
        (List.range units.length).map (fun i => decide ((s.lastCheck + i + 1) % 5 = 0)) := by
  intro units
  induction units with
  | nil => intro s _ _ _ _; simp [consecutiveCalls]
  | cons u us ih =>
    intro s hc hk hpos hall
    have hmem : (decide ((SubmitHeadersWithLoop env s chainId [u.Data.getD []]
          (some u)).1.log.infoQueries.length > s.log.infoQueries.length),
        (SubmitHeadersWithLoop env s chainId [u.Data.getD []] (some u)).2) ∈
        consecutiveCalls env chainId s (u :: us) := by
      simp [consecutiveCalls]
    have hok : (SubmitHeadersWithLoop env s chainId [u.Data.getD []] (some u)).2 = none :=
      hall _ hmem
    obtain ⟨_, hcommit⟩ := SubmitHeadersWithLoop_ok env s chainId [u.Data.getD []] u hok
    obtain ⟨hlog, hcheck, _⟩ :=
      SubmitHeadersWithLoop_counters env s chainId [u.Data.getD []] (some u)
    have hu : u.Height > 0 := hpos u (by simp)
    have hrest : ∀ r ∈ consecutiveCalls env chainId
        (SubmitHeadersWithLoop env s chainId [u.Data.getD []] (some u)).1 us, r.2 = none := by
      intro r hr
      exact hall r (by simp [consecutiveCalls, hr])
    have hlen : ([u.Data.getD []] : List Bytes).length > 0 := by simp
    by_cases h3 : s.lastCheck > 3
    · obtain ⟨hq, hz⟩ := submitAndCheck_fires env s chainId [u.Data.getD []] u hlen hc h3 hin
      have hih := ih (SubmitHeadersWithLoop env s chainId [u.Data.getD []] (some u)).1
        (by rw [hcommit]; exact hu) (by rw [hcheck, hz]; omega)
        (fun v hv => hpos v (by simp [hv])) hrest
      have h4 : s.lastCheck = 4 := by omega
      simp only [consecutiveCalls, List.map_cons, List.length_cons, List.range_succ_eq_map,
        List.map_map, hih, hlog, hq, hcheck, hz, h4]
      congr 1
      · simp
      · apply List.map_congr_left
        intro i _
        simp only [Function.comp, Nat.succ_eq_add_one]
        exact decide_eq_decide.mpr (by omega)
    · obtain ⟨hq, hz, _⟩ := submitAndCheck_counts env s chainId [u.Data.getD []] u hlen
        (fun h => h3 h.2)
      have hadd : add64 s.lastCheck 1 = s.lastCheck + 1 := by
        unfold add64
        omega
      have hih := ih (SubmitHeadersWithLoop env s chainId [u.Data.getD []] (some u)).1
        (by rw [hcommit]; exact hu) (by rw [hcheck, hz, hadd]; omega)
        (fun v hv => hpos v (by simp [hv])) hrest
      simp only [consecutiveCalls, List.map_cons, List.length_cons, List.range_succ_eq_map,
        List.map_map, hih, hlog, hq, hcheck, hz, hadd]
      congr 1
      · simp
        omega
      · apply List.map_congr_left
        intro i _
        simp only [Function.comp, Nat.succ_eq_add_one]
        exact decide_eq_decide.mpr (by omega)

/-- C10 fails on the code: from `lastCheck = 0` and `lastCommit > 0`, over a
run of consecutive successful calls with a non-empty header list and a
header of positive height on a chain of the enumerated set, the on-chain
height query is made on exactly the calls number 5, 10, 15, ... (the
counter has to exceed 3 before a call for the check to fire in it), not on
the calls number 4, 8, 12, ... -/
theorem C10_check_every_fifth_call (env : Env) (chainId : Nat) (s : Submitter)
    (units : List Header) (hin : chainId ∈ checkedChains env.base)
    (hc : s.lastCommit > 0) (h0 : s.lastCheck = 0) (hpos : ∀ u ∈ units, u.Height > 0)
    (hall : ∀ r ∈ consecutiveCalls env chainId s units, r.2 = none) :
    (consecutiveCalls env chainId s units).map Prod.fst =
      (List.range units.length).map (fun i => decide ((i + 1) % 5 = 0)) := by
  have h := consecutiveCalls_checks env chainId hin units s hc (by omega) hpos hall
  rw [h]
  apply List.map_congr_left
  intro i _
  rw [h0, Nat.zero_add]

/-- C10 at a concrete input: twelve consecutive successful calls on chain 2
from `lastCheck = 0` and `lastCommit = 10`; the height query is made in the
fifth and in the tenth call only. -/
theorem C10_check_every_fifth_call_witness :
    (2 ∈ checkedChains healthyEnv.base ∧
      ({ freshSubmitter 2 1 with lastCommit := 10 } : Submitter).lastCommit > 0 ∧
      ({ freshSubmitter 2 1 with lastCommit := 10 } : Submitter).lastCheck = 0) ∧
    (consecutiveCalls healthyEnv 2 { freshSubmitter 2 1 with lastCommit := 10 }
        ((List.range' 11 12).map unitAt)).map Prod.fst =
      [false, false, false, false, true, false, false, false, false, true, false, false] :=
  ⟨⟨by decide, by decide, by decide⟩,
    (C10_check_every_fifth_call healthyEnv 2 { freshSubmitter 2 1 with lastCommit := 10 }
      ((List.range' 11 12).map unitAt) (by decide) (by decide) (by decide) (by decide)
      (by decide)).trans (by decide)⟩

/-! ### Batches of contiguous units -/

theorem SubmitHeadersWithLoop_sync (env : Env) (s : Submitter) (chainId : Nat)
    (headers : List Bytes) (header : Option Header) :
    (SubmitHeadersWithLoop env s chainId headers header).1.sync = s.sync := by
  have hsc : (submitAndCheck env s chainId headers header).1.sync = s.sync := by
    unfold submitAndCheck submitHeadersWithLoop GetSideChainHeight
    cases header with
    | none => split_ifs <;> simp
    | some hd =>
      simp only []
      split_ifs <;> cases (env.GetInfoHeight s.log.infoQueries.length chainId).2 <;> simp
  unfold SubmitHeadersWithLoop
  cases hr : (submitAndCheck env s chainId headers header).2 <;> cases header <;> simp [hr, hsc]

theorem batchAccept_contiguous (st : SyncLoop) (u : Header) (d : Bytes) (B : Nat)
    (hB : st.s.sync.Batch = (B : Int)) (hd : u.Data = some d)
    (hcont : st.headers ≠ [] → u.Height = st.height + 1)
    (hbound : u.Height < 18446744073709551616) :
    batchAccept st u =
      ({ st with hdr := some u, height := u.Height, headers := st.headers ++ [d] },
        decide (st.headers.length + 1 ≥ B)) := by
  have hkeep : ¬ (st.headers.length > 0 ∧ st.height ≠ sub64 u.Height 1) := by
    rintro ⟨hpos, hne⟩
    have h := hcont (List.length_pos.mp hpos)
    apply hne
    unfold sub64
    omega
  unfold batchAccept
  simp only [hkeep, if_false, hd, hB, List.length_append, List.length_singleton]
  congr 1
  exact decide_eq_decide.mpr (by push_cast; omega)

theorem batchIter_contiguous (env : Env) (st : SyncLoop) (u : Header) (d : Bytes) (B : Nat)
    (hB : st.s.sync.Batch = (B : Int)) (hd : u.Data = some d)
    (hcont : st.headers ≠ [] → u.Height = st.height + 1)
    (hbound : u.Height < 18446744073709551616) :
    (batchIter env st (Event.recv u)).2 = false ∧
    (batchIter env st (Event.recv u)).1.hdr = some u ∧
    (batchIter env st (Event.recv u)).1.height = u.Height ∧
    (batchIter env st (Event.recv u)).1.s.sync = st.s.sync ∧
    (st.headers.length + 1 < B →
      (batchIter env st (Event.recv u)).1.headers = st.headers ++ [d] ∧
      (batchIter env st (Event.recv u)).1.calls = st.calls) ∧
    (st.headers.length + 1 ≥ B →
      (batchIter env st (Event.recv u)).1.headers = [] ∧
      ∃ c, (batchIter env st (Event.recv u)).1.calls = st.calls ++ [c] ∧
        c.headers = st.headers ++ [d] ∧ c.header = some u ∧
        (c.err = none →
          (batchIter env st (Event.recv u)).1.s.lastCommit = u.Height ∧
          (batchIter env st (Event.recv u)).1.s.state.cursor = some u.Height)) := by
  have hacc := batchAccept_contiguous st u d B hB hd hcont hbound
  by_cases hfull : st.headers.length + 1 ≥ B
  · have hdec : decide (st.headers.length + 1 ≥ B) = true := by simpa using hfull
    have hiter : batchIter env st (Event.recv u) =
        (commitBlock env { st with hdr := some u, height := u.Height,
                                   headers := st.headers ++ [d] } true, false) := by
      simp only [batchIter, hacc, hdec]
    rw [hiter]
    refine ⟨rfl, rfl, rfl, ?_, fun h => by omega, fun _ => ⟨rfl, ?_⟩⟩
    · exact SubmitHeadersWithLoop_sync env st.s st.s.sync.ChainId (st.headers ++ [d]) (some u)
    · refine ⟨_, rfl, rfl, rfl, ?_⟩
      intro herr
      obtain ⟨hm, hl⟩ := SubmitHeadersWithLoop_ok env st.s st.s.sync.ChainId
        (st.headers ++ [d]) u herr
      exact ⟨hl, by simp [commitBlock, ChainStore.cursor, hm]⟩
  · have hdec : decide (st.headers.length + 1 ≥ B) = false := by simpa using hfull
    have hiter : batchIter env st (Event.recv u) =
        (commitBlock env { st with hdr := some u, height := u.Height,
                                   headers := st.headers ++ [d] } false, false) := by
      simp only [batchIter, hacc, hdec]
    rw [hiter]
    exact ⟨rfl, rfl, rfl, rfl, fun _ => ⟨rfl, rfl⟩, fun h => absurd h hfull⟩

theorem ceil_div_eq (N B : Nat) (hB : 0 < B) :
    (N + B - 1) / B = N / B + if N % B = 0 then 0 else 1 := by
  have h1 := Nat.div_add_mod N B
  split_ifs with h
  · rw [h, Nat.add_zero] at h1
    have h2 : N + B - 1 = (B - 1) + B * (N / B) := by omega
    rw [h2, Nat.add_mul_div_left _ _ hB, Nat.div_eq_of_lt (by omega)]
    omega
  · have hlt := Nat.mod_lt N hB
    have h2 : N + B - 1 = (N % B + B - 1) + B * (N / B) := by omega
    rw [h2, Nat.add_mul_div_left _ _ hB]
    have h3 : (N % B + B - 1) / B = 1 := by
      apply Nat.div_eq_of_lt_le <;> omega
    omega

theorem batchLoop_contiguous (env : Env) (B : Nat) (hB0 : 0 < B) :
    ∀ (units : List Header) (st : SyncLoop),
      st.s.sync.Batch = (B : Int) → st.headers.length < B →
      (∀ u ∈ units, u.Data ≠ none) → (∀ u ∈ units, u.Height < 18446744073709551616) →
      List.Chain' (fun a b => b.Height = a.Height + 1) units →
      (st.headers ≠ [] → ∀ u, units.head? = some u → u.Height = st.height + 1) →
      (batchLoop env st (units.map Event.recv)).2 = false ∧
      (batchLoop env st (units.map Event.recv)).1.s.sync = st.s.sync ∧
      (batchLoop env st (units.map Event.recv)).1.headers.length =
        (st.headers.length + units.length) % B ∧
      (∃ new, (batchLoop env st (units.map Event.recv)).1.calls = st.calls ++ new ∧
        (new.map Call.headers).flatten ++ (batchLoop env st (units.map Event.recv)).1.headers =
          st.headers ++ units.filterMap (fun u => u.Data) ∧
        (∀ c ∈ new, c.headers.length = B) ∧
        new.length = (st.headers.length + units.length) / B) ∧
      (∀ last, units.getLast? = some last →
        (batchLoop env st (units.map Event.recv)).1.hdr = some last ∧
        ((batchLoop env st (units.map Event.recv)).1.headers = [] →
          (batchLoop env st (units.map Event.recv)).1.Settled last)) := by
  intro units
  induction units with
  | nil =>
    intro st _ hlen _ _ _ _
    refine ⟨rfl, rfl, ?_, ⟨[], ?_, ?_, ?_, ?_⟩, ?_⟩
    · simp [batchLoop, Nat.mod_eq_of_lt hlen]
    · simp [batchLoop]
    · simp [batchLoop]
    · simp
    · simp [Nat.div_eq_of_lt hlen]
    · intro last h
      simp at h
  | cons u us ih =>
    intro st hB hlen hdata hbound hchain hhead
    obtain ⟨d, hd⟩ : ∃ d, u.Data = some d := by
      cases hdu : u.Data with
      | none => exact absurd hdu (hdata u (by simp))
      | some d => exact ⟨d, rfl⟩
    obtain ⟨hflag, hhdr, hheight, hsync, hpart, hfull⟩ :=
      batchIter_contiguous env st u d B hB hd (fun hne => hhead hne u (by simp))
        (hbound u (by simp))
    have hloop : batchLoop env st ((u :: us).map Event.recv) =
        batchLoop env (batchIter env st (Event.recv u)).1 (us.map Event.recv) := by
      simp [batchLoop, hflag]
    rw [hloop]
    have hnext : ∀ v, us.head? = some v →
        v.Height = (batchIter env st (Event.recv u)).1.height + 1 := by
      intro v hv
      cases us with
      | nil => simp at hv
      | cons w ws =>
        simp only [List.head?_cons, Option.some.injEq] at hv
        subst hv
        rw [hheight]
        exact (List.chain'_cons.mp hchain).1
    have hlast : ∀ last, (u :: us).getLast? = some last → us = [] → last = u := by
      intro last h he
      subst he
      simpa using h.symm
    by_cases hroom : st.headers.length + 1 < B
    · obtain ⟨hh, hc⟩ := hpart hroom
      obtain ⟨i1, i2, i3, ⟨new, j1, j2, j3, j4⟩, i5⟩ :=
        ih (batchIter env st (Event.recv u)).1 (by rw [hsync]; exact hB)
          (by rw [hh]; simpa using hroom) (fun v hv => hdata v (by simp [hv]))
          (fun v hv => hbound v (by simp [hv])) hchain.tail (fun _ => hnext)
      refine ⟨i1, i2.trans hsync, ?_, ⟨new, ?_, ?_, j3, ?_⟩, ?_⟩
      · rw [i3, hh]
        simp only [List.length_append, List.length_cons, List.length_nil]
        congr 1
        omega
      · rw [j1, hc]
      · rw [j2, hh]
        simp [hd]
      · rw [j4, hh]
        simp only [List.length_append, List.length_cons, List.length_nil]
        congr 1
        omega
      · intro last hl
        cases us with
        | nil =>
          have := hlast last hl rfl
          subst this
          refine ⟨by simpa [batchLoop] using hhdr, ?_⟩
          intro hempty
          simp [batchLoop, hh] at hempty
        | cons w ws =>
          rw [List.getLast?_cons_cons] at hl
          exact i5 last hl
    · have hge : st.headers.length + 1 ≥ B := by omega
      obtain ⟨hh, c, hc, hch, hchd, hcerr⟩ := hfull hge
      obtain ⟨i1, i2, i3, ⟨new, j1, j2, j3, j4⟩, i5⟩ :=
        ih (batchIter env st (Event.recv u)).1 (by rw [hsync]; exact hB)
          (by rw [hh]; simpa using hB0) (fun v hv => hdata v (by simp [hv]))
          (fun v hv => hbound v (by simp [hv])) hchain.tail (fun _ => hnext)
      have hBeq : st.headers.length + 1 = B := by omega
      refine ⟨i1, i2.trans hsync, ?_, ⟨c :: new, ?_, ?_, ?_, ?_⟩, ?_⟩
      · rw [i3, hh]
        simp only [List.length_nil, List.length_cons, Nat.zero_add]
        have : st.headers.length + (us.length + 1) = B + us.length := by omega
        rw [this, Nat.add_mod_left]
      · rw [j1, hc]
        simp
      · simp only [List.map_cons, List.flatten_cons, List.append_assoc]
        rw [j2, hh, hch]
        simp [hd]
      · intro c1 hc1
        rcases List.mem_cons.mp hc1 with h | h
        · rw [h, hch]
          simpa using hBeq
        · exact j3 c1 h
      · rw [List.length_cons, j4, hh]
        simp only [List.length_nil, List.length_cons, Nat.zero_add]
        have : st.headers.length + (us.length + 1) = B + us.length := by omega
        rw [this, Nat.add_div_left _ hB0]
      · intro last hl
        cases us with
        | nil =>
          have := hlast last hl rfl
          subst this
          refine ⟨by simpa [batchLoop] using hhdr, ?_⟩
          intro _
          exact ⟨st.calls, c, by simpa [batchLoop] using hc, hchd,
            by simpa [batchLoop] using hcerr⟩
        | cons w ws =>
          rw [List.getLast?_cons_cons] at hl
          exact i5 last hl

theorem batchLoop_append (env : Env) (ys : List Event) :
    ∀ (xs : List Event) (st : SyncLoop), (batchLoop env st xs).2 = false →
      batchLoop env st (xs ++ ys) = batchLoop env (batchLoop env st xs).1 ys := by
  intro xs
  induction xs with
  | nil => intro st _; simp [batchLoop]
  | cons x xs ih =>
    intro st h
    by_cases hb : (batchIter env st x).2 = true
    · simp [batchLoop, hb] at h
    · simp only [batchLoop, hb, List.cons_append] at h ⊢
      exact ih _ h

theorem batchFlush_settled (env : Env) (st : SyncLoop) (u : Header)
    (hne : st.headers ≠ []) (hu : st.hdr = some u) : (batchFlush env st).Settled u := by
  have hpos : st.headers.length > 0 := List.length_pos.mpr hne
  refine ⟨st.calls,
    { chainId := st.s.sync.ChainId, headers := st.headers, header := st.hdr,
      err := (SubmitHeadersWithLoop env st.s st.s.sync.ChainId st.headers st.hdr).2,
      flush := true }, by simp [batchFlush, hpos], hu, ?_⟩
  intro herr
  simp only [hu] at herr
  obtain ⟨hm, hl⟩ := SubmitHeadersWithLoop_ok env st.s st.s.sync.ChainId st.headers u herr
  simp only [batchFlush, hpos, if_true, hu]
  exact ⟨hl, by simp [ChainStore.cursor, hm]⟩

/-- C2: for every batch size B >= 2 and every non-empty sequence of units
that all carry header bytes and have contiguous increasing heights,
delivered on the channel and followed by closure, with no timeout and no
cancellation, and every submission returning no error,
`syncHeaderBatchLoop` returns after exactly ceil(N/B) calls of
`SubmitHeadersWithLoop`, every call carries at least 1 and at most B header
byte sequences, the concatenation of the submitted lists is the sequence of
the units' bytes in arrival order, and `lastCommit` and the cursor of the
Chain Store equal the height of the last unit. -/
theorem C2_contiguous_batches (env : Env) (s : Submitter) (B : Nat) (units : List Header)
    (last : Header) (hB : 2 ≤ B) (hbatch : s.sync.Batch = (B : Int))
    (hlast : units.getLast? = some last)
    (hdata : ∀ u ∈ units, u.Data ≠ none)
    (hbound : ∀ u ∈ units, u.Height < 18446744073709551616)
    (hchain : List.Chain' (fun a b => b.Height = a.Height + 1) units)
    (hok : ∀ c ∈ (syncHeaderBatchLoop env s (units.map Event.recv ++ [Event.closed])).1.calls,
      c.err = none) :
    (syncHeaderBatchLoop env s (units.map Event.recv ++ [Event.closed])).2 = true ∧
    (syncHeaderBatchLoop env s (units.map Event.recv ++ [Event.closed])).1.calls.length =
      (units.length + B - 1) / B ∧
    (∀ c ∈ (syncHeaderBatchLoop env s (units.map Event.recv ++ [Event.closed])).1.calls,
      1 ≤ c.headers.length ∧ c.headers.length ≤ B) ∧
    ((syncHeaderBatchLoop env s (units.map Event.recv ++ [Event.closed])).1.calls.map
        Call.headers).flatten = units.filterMap (fun u => u.Data) ∧
    (syncHeaderBatchLoop env s (units.map Event.recv ++ [Event.closed])).1.s.lastCommit =
      last.Height ∧
    (syncHeaderBatchLoop env s (units.map Event.recv ++ [Event.closed])).1.s.state.cursor =
      some last.Height := by
  have hB0 : 0 < B := by omega
  obtain ⟨i1, _, i3, ⟨new, j1, j2, j3, j4⟩, i5⟩ :=
    batchLoop_contiguous env B hB0 units (SyncLoop.start s) hbatch
      (by simpa [SyncLoop.start] using hB0) hdata hbound hchain
      (fun h => absurd rfl h)
  obtain ⟨hhdr, hsettled⟩ := i5 last hlast
  have hrun : syncHeaderBatchLoop env s (units.map Event.recv ++ [Event.closed]) =
      (batchFlush env (batchLoop env (SyncLoop.start s) (units.map Event.recv)).1, true) := by
    unfold syncHeaderBatchLoop batchFrom
    rw [batchLoop_append env [Event.closed] _ _ i1]
    simp [batchLoop, batchIter]
  rw [hrun] at hok ⊢
  have e1 : (SyncLoop.start s).calls = [] := rfl
  have e2 : (SyncLoop.start s).headers = [] := rfl
  rw [e1, List.nil_append] at j1
  rw [e2, List.nil_append] at j2
  rw [e2, List.length_nil, Nat.zero_add] at j4 i3
  obtain ⟨fl, hfc, hfh, hf1, hf0⟩ :=
    batchFlush_headers env (batchLoop env (SyncLoop.start s) (units.map Event.recv)).1
  have hmod := Nat.mod_lt units.length hB0
  refine ⟨rfl, ?_, ?_, ?_, ?_⟩
  · show (batchFlush env _).calls.length = _
    rw [hfc, j1, List.length_append, j4, ceil_div_eq _ _ hB0]
    congr 1
    split_ifs with hz
    · rw [hf0 (List.length_eq_zero.mp (i3.trans hz))]
      rfl
    · exact hf1 (fun he => hz (by rw [← i3, he]; rfl))
  · intro c hc
    have hc2 : c ∈ new ++ fl := by
      have : c ∈ (batchFlush env
          (batchLoop env (SyncLoop.start s) (units.map Event.recv)).1).calls := hc
      rwa [hfc, j1] at this
    rcases List.mem_append.mp hc2 with h | h
    · rw [j3 c h]
      omega
    · rw [(hfh c h).1, i3]
      have hne : fl ≠ [] := List.ne_nil_of_mem h
      have hnz : units.length % B ≠ 0 := by
        intro hz
        exact hne (hf0 (List.length_eq_zero.mp (i3.trans hz)))
      omega
  · show ((batchFlush env _).calls.map Call.headers).flatten = _
    rw [hfc, j1, List.map_append, List.flatten_append, ← j2]
    congr 1
    by_cases he : (batchLoop env (SyncLoop.start s) (units.map Event.recv)).1.headers = []
    · rw [hf0 he, he]
      rfl
    · have h1 := hf1 he
      obtain ⟨c, hc⟩ := List.length_eq_one.mp h1
      rw [hc]
      simp [(hfh c (by rw [hc]; simp)).1]
  · show (batchFlush env _).s.lastCommit = _ ∧ (batchFlush env _).s.state.cursor = _
    by_cases he : (batchLoop env (SyncLoop.start s) (units.map Event.recv)).1.headers = []
    · have hfl : batchFlush env (batchLoop env (SyncLoop.start s) (units.map Event.recv)).1 =
          (batchLoop env (SyncLoop.start s) (units.map Event.recv)).1 := by
        simp [batchFlush, he]
      rw [hfl] at hok ⊢
      obtain ⟨pre, c, hcalls, _, hcerr⟩ := hsettled he
      exact hcerr (hok c (by
        show c ∈ (batchLoop env (SyncLoop.start s) (units.map Event.recv)).1.calls
        rw [hcalls]
        simp))
    · obtain ⟨pre, c, hcalls, _, hcerr⟩ := batchFlush_settled env _ last he hhdr
      exact hcerr (hok c (by
        show c ∈ (batchFlush env
          (batchLoop env (SyncLoop.start s) (units.map Event.recv)).1).calls
        rw [hcalls]
        simp))

/-- C2 at the claim's input: heights 100, 101, 102 with batch size 3 give
exactly one call, with three byte sequences, and the cursor at 102. -/
theorem C2_contiguous_batches_witness :
    (2 ≤ 3 ∧ (freshSubmitter 2 3).sync.Batch = ((3 : Nat) : Int) ∧
      threeUnits.getLast? = some (unitAt 102)) ∧
    (syncHeaderBatchLoop sampleEnv (freshSubmitter 2 3)
        (threeUnits.map Event.recv ++ [Event.closed])).1.calls.map Call.summary =
      [(3, some 102, none, false)] ∧
    ((syncHeaderBatchLoop sampleEnv (freshSubmitter 2 3)
        (threeUnits.map Event.recv ++ [Event.closed])).2 = true ∧
      (syncHeaderBatchLoop sampleEnv (freshSubmitter 2 3)
        (threeUnits.map Event.recv ++ [Event.closed])).1.calls.length = (threeUnits.length + 3 - 1) / 3 ∧
      (∀ c ∈ (syncHeaderBatchLoop sampleEnv (freshSubmitter 2 3)
          (threeUnits.map Event.recv ++ [Event.closed])).1.calls,
        1 ≤ c.headers.length ∧ c.headers.length ≤ 3) ∧
      ((syncHeaderBatchLoop sampleEnv (freshSubmitter 2 3)
          (threeUnits.map Event.recv ++ [Event.closed])).1.calls.map Call.headers).flatten =
        threeUnits.filterMap (fun u => u.Data) ∧
      (syncHeaderBatchLoop sampleEnv (freshSubmitter 2 3)
        (threeUnits.map Event.recv ++ [Event.closed])).1.s.lastCommit = (unitAt 102).Height ∧
      (syncHeaderBatchLoop sampleEnv (freshSubmitter 2 3)
        (threeUnits.map Event.recv ++ [Event.closed])).1.s.state.cursor =
        some (unitAt 102).Height) :=
  ⟨⟨by decide, by decide, by decide⟩, by decide,
    C2_contiguous_batches sampleEnv (freshSubmitter 2 3) 3 threeUnits (unitAt 102)
      (by decide) (by decide) (by decide) (by decide) (by decide)
      (by simp [threeUnits, unitAt]) (by decide)⟩

/-! ### The pending batch stays below the batch size

At every `select` of the batch loop the pending batch is empty or shorter
than the batch size. -/

theorem batchAccept_flag (st : SyncLoop) (header : Header)
    (hc : (batchAccept st header).2 = false) :
    ((batchAccept st header).1.headers.length : Int) < (batchAccept st header).1.s.sync.Batch := by
  unfold batchAccept at hc ⊢
  cases hd : header.Data with
  | none => simp [hd] at hc
  | some d =>
    simp only [hd, decide_eq_false_iff_not, not_le, ge_iff_le] at hc ⊢
    exact hc

theorem batchIter_pending_below (env : Env) (st : SyncLoop) (ev : Event)
    (h : st.headers = [] ∨ (st.headers.length : Int) < st.s.sync.Batch) :
    (batchIter env st ev).1.headers = [] ∨
      ((batchIter env st ev).1.headers.length : Int) < (batchIter env st ev).1.s.sync.Batch := by
  cases ev with
  | done => exact h
  | closed => exact h
  | timeout =>
    cases hc : decide (st.headers.length > 0) with
    | false =>
      have e : batchIter env st Event.timeout = (st, false) := by
        simp only [batchIter, hc, commitBlock]
        rfl
      rw [e]
      exact h
    | true =>
      left
      simp only [batchIter, hc, commitBlock, if_true]
  | recv header =>
    cases hc : (batchAccept st header).2 with
    | true =>
      left
      simp only [batchIter, hc, commitBlock, if_true]
    | false =>
      right
      have e : batchIter env st (Event.recv header) = ((batchAccept st header).1, false) := by
        simp only [batchIter, hc, commitBlock]
        rfl
      rw [e]
      exact batchAccept_flag st header hc

theorem batchLoop_pending_below (env : Env) (events : List Event) :
    ∀ st : SyncLoop, (st.headers = [] ∨ (st.headers.length : Int) < st.s.sync.Batch) →
      (batchLoop env st events).1.headers = [] ∨
        ((batchLoop env st events).1.headers.length : Int) <
          (batchLoop env st events).1.s.sync.Batch := by
  induction events with
  | nil => intro st h; exact h
  | cons ev evs ih =>
    intro st h
    have h1 := batchIter_pending_below env st ev h
    by_cases hb : (batchIter env st ev).2 = true
    · simpa [batchLoop, hb] using h1
    · simpa [batchLoop, hb] using ih _ h1

/-! ### The outcome of the confirmation check -/

theorem submitAndCheck_outcome (env : Env) (s : Submitter) (chainId : Nat)
    (headers : List Bytes) (hd : Header) (hpos : headers.length > 0)
    (hc : s.lastCommit > 0) (hk : s.lastCheck > 3) :
    (submitAndCheck env s chainId headers (some hd)).2 =
      (if chainId ∈ checkedChains env.base ∧ (GetSideChainHeight env s chainId).2.2 = none ∧
          (GetSideChainHeight env s chainId).2.1 < s.lastCommit
        then some GoError.ERR_HEADER_MISSING else none) ∧
    (submitAndCheck env s chainId headers (some hd)).1.lastCheck = 0 := by
  unfold submitAndCheck submitHeadersWithLoop GetSideChainHeight
  simp only [hpos, hc, hk, if_true, and_self]
  by_cases hin : chainId ∈ checkedChains env.base
  · simp only [hin, if_true, true_and]
    cases hq : (env.GetInfoHeight s.log.infoQueries.length chainId).2 with
    | some e => simp
    | none =>
      by_cases hlow : (env.GetInfoHeight s.log.infoQueries.length chainId).1 % 4294967296 <
          s.lastCommit
      · simp [hlow]
      · simp [hlow]
  · simp [hin]

/-- C11: when the confirmation check fires inside `SubmitHeadersWithLoop`
(non-empty header list, non-nil header, `lastCommit > 0`, `lastCheck > 3`;
the submission itself always succeeds), the call returns
`ERR_HEADER_MISSING` if and only if the chain id is in the enumerated set,
the on-chain height query succeeds and the height it returns is strictly
lower than `lastCommit` as it was before the call; in every other case the
call returns no error; and in all cases `lastCheck` is 0 afterwards. -/
theorem C11_header_missing_iff (env : Env) (s : Submitter) (chainId : Nat)
    (headers : List Bytes) (hd : Header) (hpos : headers.length > 0)
    (hc : s.lastCommit > 0) (hk : s.lastCheck > 3) :
    ((SubmitHeadersWithLoop env s chainId headers (some hd)).2 =
        some GoError.ERR_HEADER_MISSING ↔
      chainId ∈ checkedChains env.base ∧ (GetSideChainHeight env s chainId).2.2 = none ∧
        (GetSideChainHeight env s chainId).2.1 < s.lastCommit) ∧
    (¬ (chainId ∈ checkedChains env.base ∧ (GetSideChainHeight env s chainId).2.2 = none ∧
        (GetSideChainHeight env s chainId).2.1 < s.lastCommit) →
      (SubmitHeadersWithLoop env s chainId headers (some hd)).2 = none) ∧
    (SubmitHeadersWithLoop env s chainId headers (some hd)).1.lastCheck = 0 := by
  obtain ⟨_, hcheck, herr⟩ := SubmitHeadersWithLoop_counters env s chainId headers (some hd)
  obtain ⟨hout, hzero⟩ := submitAndCheck_outcome env s chainId headers hd hpos hc hk
  rw [herr, hcheck, hout]
  refine ⟨?_, ?_, hzero⟩
  · constructor
    · intro h
      by_contra hn
      rw [if_neg hn] at h
      exact Option.noConfusion h
    · intro h
      rw [if_pos h]
  · intro hn
    rw [if_neg hn]

/-- C11 at a concrete input: last commit 49, four submissions counted, chain
2 of the enumerated set, the destination reporting height 3: the call for
the unit of height 50 returns `ERR_HEADER_MISSING` and `lastCheck` is 0. -/
theorem C11_header_missing_iff_witness :
    (([[50]] : List Bytes).length > 0 ∧ dueSubmitter.lastCommit > 0 ∧
      dueSubmitter.lastCheck > 3) ∧
    (SubmitHeadersWithLoop sampleEnv dueSubmitter 2 [[50]] (some (unitAt 50))).2 =
      some GoError.ERR_HEADER_MISSING ∧
    (SubmitHeadersWithLoop sampleEnv dueSubmitter 2 [[50]] (some (unitAt 50))).1.lastCheck = 0 :=
  ⟨⟨by decide, by decide, by decide⟩,
    (C11_header_missing_iff sampleEnv dueSubmitter 2 [[50]] (unitAt 50) (by decide) (by decide)
      (by decide)).1.mpr ⟨by decide, by decide, by decide⟩,
    (C11_header_missing_iff sampleEnv dueSubmitter 2 [[50]] (unitAt 50) (by decide) (by decide)
      (by decide)).2.2⟩

/-! ### Epoch aggregation -/

theorem collectEpochs_valid (env : Env) :
    ∀ (ms : List Tx) (acc : List Bytes),
      (∀ m ∈ ms, m.TxType = TxType.POLY_EPOCH ∧ m.PolyEpoch ≠ none) →
      collectEpochs env acc ms = Except.ok (acc ++ epochHeaders ms) := by
  intro ms
  induction ms with
  | nil => intro acc _; simp [collectEpochs, epochHeaders]
  | cons m ms ih =>
    intro acc h
    obtain ⟨hty, hpay⟩ := h m (by simp)
    cases hp : m.PolyEpoch with
    | none => exact absurd hp hpay
    | some epoch =>
      have hrest := ih (acc ++ [epoch.Header]) (fun x hx => h x (by simp [hx]))
      simp only [collectEpochs, hp, hty, ne_eq, not_true_eq_false, if_false, hrest]
      simp [epochHeaders, hp]

theorem collectEpochs_invalid (env : Env) :
    ∀ (ms : List Tx) (acc : List Bytes),
      (∃ m ∈ ms, m.TxType ≠ TxType.POLY_EPOCH ∨ m.PolyEpoch = none) →
      ∃ e, collectEpochs env acc ms = Except.error e := by
  intro ms
  induction ms with
  | nil =>
    intro acc h
    obtain ⟨m, hm, _⟩ := h
    simp at hm
  | cons m ms ih =>
    intro acc h
    cases hp : m.PolyEpoch with
    | none =>
      exact ⟨GoError.other ("Invalid side chainy epoch message " ++ env.Encode m),
        by simp only [collectEpochs, hp]⟩
    | some epoch =>
      by_cases hty : m.TxType = TxType.POLY_EPOCH
      · obtain ⟨x, hx, hbad⟩ := h
        rcases List.mem_cons.mp hx with hxm | hxm
        · subst hxm
          rcases hbad with hb | hb
          · exact absurd hty hb
          · rw [hp] at hb
            exact Option.noConfusion hb
        · obtain ⟨e, he⟩ := ih (acc ++ [epoch.Header]) ⟨x, hxm, hbad⟩
          exact ⟨e, by simp only [collectEpochs, hp, hty, ne_eq, not_true_eq_false, if_false, he]⟩
      · exact ⟨GoError.other ("Invalid side chainy epoch message " ++ env.Encode m),
          by simp only [collectEpochs, hp, ne_eq, hty, not_false_eq_true, if_true]⟩

theorem epochHeaders_length (ms : List Tx) (h : ∀ m ∈ ms, m.PolyEpoch ≠ none) :
    (epochHeaders ms).length = ms.length := by
  induction ms with
  | nil => rfl
  | cons m ms ih =>
    cases hp : m.PolyEpoch with
    | none => exact absurd hp (h m (by simp))
    | some epoch =>
      have := ih (fun x hx => h x (by simp [hx]))
      simp only [epochHeaders] at this ⊢
      simp [hp, this]

/-- C12: `ProcessEpochs` on an empty list returns no error and makes no
call of `SubmitHeaders`; on a list with an element that is not epoch-typed
or has no epoch payload, at whatever position, it returns an error and
makes no call of `SubmitHeaders`; on any other list it calls
`SubmitHeaders` exactly once, with the origin chain id of the last element
and with the header bytes of the elements in input order, as many as the
input has elements. Three epoch messages from chains 5, 6, 7 give one call
for chain 7 with the three headers; with a source-typed message in the
middle the call is not made. -/
theorem C12_epochs_aggregated_once (env : Env) (s : Submitter) (epochs : List Tx) :
    ProcessEpochs env s [] = (s, none) ∧
    ((∃ m ∈ epochs, m.TxType ≠ TxType.POLY_EPOCH ∨ m.PolyEpoch = none) →
      (∃ e, (ProcessEpochs env s epochs).2 = some e) ∧ (ProcessEpochs env s epochs).1 = s) ∧
    (epochs ≠ [] → (∀ m ∈ epochs, m.TxType = TxType.POLY_EPOCH ∧ m.PolyEpoch ≠ none) →
      ∃ last epoch, epochs.getLast? = some last ∧ last.PolyEpoch = some epoch ∧
        (ProcessEpochs env s epochs).2 = none ∧
        (ProcessEpochs env s epochs).1 = (SubmitHeaders s epoch.ChainId (epochHeaders epochs)).1 ∧
        (ProcessEpochs env s epochs).1.log.headerSubmits =
          s.log.headerSubmits ++ [(epoch.ChainId, epochHeaders epochs)] ∧
        (epochHeaders epochs).length = epochs.length) ∧
    (ProcessEpochs sampleEnv (freshSubmitter 2 1)
        [epochTx 5 [1], epochTx 6 [2], epochTx 7 [3]]).1.log.headerSubmits =
      [(7, [[1], [2], [3]])] ∧
    (ProcessEpochs sampleEnv (freshSubmitter 2 1)
        [epochTx 5 [1], sampleTx, epochTx 7 [3]]).1.log.headerSubmits = [] ∧
    (ProcessEpochs sampleEnv (freshSubmitter 2 1) [epochTx 5 [1], sampleTx, epochTx 7 [3]]).2 =
      some (GoError.other "Invalid side chainy epoch message 0x01") := by
  refine ⟨by simp [ProcessEpochs], ?_, ?_, by decide, by decide, by decide⟩
  · intro hbad
    obtain ⟨e, he⟩ := collectEpochs_invalid env epochs [] hbad
    have hne : epochs.length ≠ 0 := by
      obtain ⟨m, hm, _⟩ := hbad
      intro h0
      rw [List.length_eq_zero.mp h0] at hm
      simp at hm
    have hp : ProcessEpochs env s epochs = (s, some e) := by
      simp only [ProcessEpochs, hne, if_false, he]
    rw [hp]
    exact ⟨⟨e, rfl⟩, rfl⟩
  · intro hne hvalid
    obtain ⟨last, hlast⟩ : ∃ last, epochs.getLast? = some last := by
      cases h : epochs.getLast? with
      | none => exact absurd (List.getLast?_eq_none_iff.mp h) hne
      | some last => exact ⟨last, rfl⟩
    obtain ⟨_, hpay⟩ := hvalid last (List.mem_of_getLast?_eq_some hlast)
    obtain ⟨epoch, hepoch⟩ : ∃ epoch, last.PolyEpoch = some epoch := by
      cases h : last.PolyEpoch with
      | none => exact absurd h hpay
      | some epoch => exact ⟨epoch, rfl⟩
    have hlen : epochs.length ≠ 0 := fun h0 => hne (List.length_eq_zero.mp h0)
    have hcol := collectEpochs_valid env epochs [] hvalid
    rw [List.nil_append] at hcol
    refine ⟨last, epoch, hlast, hepoch, ?_, ?_, ?_,
      epochHeaders_length epochs (fun m hm => (hvalid m hm).2)⟩
    · simp only [ProcessEpochs, hlen, if_false, hcol, hlast, hepoch, SubmitHeaders]
    · simp only [ProcessEpochs, hlen, if_false, hcol, hlast, hepoch]
    · simp only [ProcessEpochs, hlen, if_false, hcol, hlast, hepoch, SubmitHeaders]

end Relayer
